import Mathlib

/-!
Shallow embedding of the open-hospital/pharmacy web application's server-side
logic: the business-hours status calculator (`src/app/utils/businessHours.ts`),
the bounded TTL memory cache (`src/app/utils/cache.ts`), the retry fetch helper
and coordinate deduplication (`src/app/utils/apiUtils.ts`), and the pharmacies
route handlers (`src/app/api/pharmacies/route.ts`).

JavaScript values are modelled as follows: `string` is `String`; numbers in
the weekly time fields are modelled as integers (`Int`), which is exact for
every integral JS number the registry delivers and keeps `String(n)` equal to
`toString n`; coordinates and distances are modelled as rationals, with
`Option` capturing `NaN` where the code can produce it; `undefined` fields are
`Option`; JS truthiness is made explicit (`0`, `""`, `undefined`, `NaN` are
falsy).  Asynchronous I/O (fetch, geocoding) is modelled by oracles passed as
parameters, and `Date.now()` / the current `Date` by explicit arguments.
-/

/-! ## JS string and number primitives -/

/-- A decimal digit character. -/
def isDigitChar (c : Char) : Bool := '0' ≤ c && c ≤ '9'

/-- Numeric value of a digit character. -/
def digitVal (c : Char) : Nat := c.toNat - '0'.toNat

/-- Value of a digit string, most significant first. -/
def digitsToNat (ds : List Char) : Nat := ds.foldl (fun a c => a * 10 + digitVal c) 0

/-- Whitespace skipped by JS `parseInt`/`parseFloat` (representative set). -/
def isJsWhitespace (c : Char) : Bool := c = ' ' || c = '\t' || c = '\n' || c = '\r'

/-- Split an optional leading sign, returning the sign and the rest. -/
def splitSign : List Char → Int × List Char
  | '-' :: rest => (-1, rest)
  | '+' :: rest => (1, rest)
  | l => (1, l)

/-- JS `parseInt(s, 10)` on a character list: skip whitespace, optional sign,
then the longest digit prefix; `none` models `NaN`. -/
def parseIntChars (l : List Char) : Option Int :=
  let l1 := l.dropWhile isJsWhitespace
  let p := splitSign l1
  let ds := p.2.takeWhile isDigitChar
  if ds.isEmpty then none else some (p.1 * (digitsToNat ds : Int))

/-- JS `parseInt(s, 10)`; `none` models `NaN`. -/
def jsParseInt (s : String) : Option Int := parseIntChars s.data

/-- JS `String.prototype.padStart(n, c)`. -/
def jsPadStart (s : String) (n : Nat) (c : Char) : String :=
  if n ≤ s.length then s else String.mk (List.replicate (n - s.length) c) ++ s

/-- JS `String.prototype.substring(a, b)` (for `a ≤ b`): characters `[a, b)`. -/
def jsSubstring (s : String) (a b : Nat) : String :=
  String.mk ((s.data.drop a).take (b - a))

/-- JS `s || d` for an optional string `s` (`null`/`""` fall back to `d`). -/
def jsOrStr (s : Option String) (d : String) : String :=
  match s with
  | none => d
  | some s => if s = "" then d else s

/-- A JS value sitting in a `string | number` field (the weekly duty-time
fields).  Numbers are modelled as integers, which is exact for the integral
numbers the XML parser produces and keeps `String(n) = toString n`. -/
inductive JSPrim where
  | str (s : String)
  | num (n : Int)
deriving DecidableEq

/-- JS `String(v)`. -/
def JSPrim.toJsString : JSPrim → String
  | .str s => s
  | .num n => toString n

/-- JS truthiness of a `string | number` value. -/
def JSPrim.truthy : JSPrim → Bool
  | .str s => s ≠ ""
  | .num n => n ≠ 0

/-- JS truthiness of a possibly-`undefined` `string | number` value. -/
def truthyOpt : Option JSPrim → Bool
  | none => false
  | some v => v.truthy

/-! ## `src/app/utils/businessHours.ts` -/

namespace BusinessHours

/-- `OpenStatus` from `src/app/types/index.ts`. -/
inductive OpenStatus where
  | «open»
  | closed
  | holiday
deriving DecidableEq

/-- The parts of a JS `Date` this code reads: `getDay()`, `getHours()`,
`getMinutes()`. -/
structure JSDate where
  day : Fin 7
  hours : Fin 24
  minutes : Fin 60

/-- Minute-of-day of a date, `getHours() * 60 + getMinutes()`. -/
def JSDate.currentMinutes (d : JSDate) : Int := ((d.hours.val * 60 + d.minutes.val : Nat) : Int)

/-- The `TimeFields` interface: weekly start/close times (1 = Monday, …,
7 = Sunday, 8 = holiday). -/
structure TimeFields where
  dutyTime1s : Option JSPrim := none
  dutyTime1c : Option JSPrim := none
  dutyTime2s : Option JSPrim := none
  dutyTime2c : Option JSPrim := none
  dutyTime3s : Option JSPrim := none
  dutyTime3c : Option JSPrim := none
  dutyTime4s : Option JSPrim := none
  dutyTime4c : Option JSPrim := none
  dutyTime5s : Option JSPrim := none
  dutyTime5c : Option JSPrim := none
  dutyTime6s : Option JSPrim := none
  dutyTime6c : Option JSPrim := none
  dutyTime7s : Option JSPrim := none
  dutyTime7c : Option JSPrim := none
  dutyTime8s : Option JSPrim := none
  dutyTime8c : Option JSPrim := none

/-- `timeToMinutes`: convert an `HHMM`-ish value to minutes; `none` is `null`. -/
def timeToMinutes : Option JSPrim → Option Int
  | none => none
  | some v =>
    let str := jsPadStart v.toJsString 4 '0'
    if str.length < 4 then none
    else
      match jsParseInt (jsSubstring str 0 2), jsParseInt (jsSubstring str 2 4) with
      | some hours, some minutes => some (hours * 60 + minutes)
      | _, _ => none

/-- `formatTime`: human-readable rendering of an `HHMM`-ish value. -/
def formatTime : Option JSPrim → String
  | none => "-"
  | some v =>
    let str := jsPadStart v.toJsString 4 '0'
    if str.length < 4 then "-"
    else
      match jsParseInt (jsSubstring str 0 2), jsParseInt (jsSubstring str 2 4) with
      | some hours, some minutes =>
        let period := if 12 ≤ hours then "오후" else "오전"
        let displayHours : Int := if 12 < hours then hours - 12 else if hours = 0 then 12 else hours
        let displayMinutes := jsPadStart (toString minutes) 2 '0'
        period ++ " " ++ toString displayHours ++ ":" ++ displayMinutes
      | _, _ => "-"

/-- `getDayTimes`: the day's start/close entries (0 = Sunday … 6 = Saturday);
the catch-all mirrors the source's `timeMap[dayOfWeek] || {}`. -/
def getDayTimes (item : TimeFields) (dayOfWeek : Fin 7) : Option JSPrim × Option JSPrim :=
  match dayOfWeek.val with
  | 0 => (item.dutyTime7s, item.dutyTime7c)
  | 1 => (item.dutyTime1s, item.dutyTime1c)
  | 2 => (item.dutyTime2s, item.dutyTime2c)
  | 3 => (item.dutyTime3s, item.dutyTime3c)
  | 4 => (item.dutyTime4s, item.dutyTime4c)
  | 5 => (item.dutyTime5s, item.dutyTime5c)
  | 6 => (item.dutyTime6s, item.dutyTime6c)
  | _ => (none, none)

/-- `hasTodayHours`: both of the day's entries are present (strict
`!== undefined && !== null`, not truthiness). -/
def hasTodayHours (item : TimeFields) (dayOfWeek : Fin 7) : Bool :=
  (getDayTimes item dayOfWeek).1.isSome && (getDayTimes item dayOfWeek).2.isSome

/-- `hasAnyTimeInfo`: some weekly field is truthy. -/
def hasAnyTimeInfo (item : TimeFields) : Bool :=
  truthyOpt item.dutyTime1s || truthyOpt item.dutyTime1c ||
  truthyOpt item.dutyTime2s || truthyOpt item.dutyTime2c ||
  truthyOpt item.dutyTime3s || truthyOpt item.dutyTime3c ||
  truthyOpt item.dutyTime4s || truthyOpt item.dutyTime4c ||
  truthyOpt item.dutyTime5s || truthyOpt item.dutyTime5c ||
  truthyOpt item.dutyTime6s || truthyOpt item.dutyTime6c ||
  truthyOpt item.dutyTime7s || truthyOpt item.dutyTime7c ||
  truthyOpt item.dutyTime8s || truthyOpt item.dutyTime8c

/-- `checkIsOpen(item, currentDate)`. -/
def checkIsOpen (item : TimeFields) (currentDate : JSDate) : Bool :=
  let times := getDayTimes item currentDate.day
  if !truthyOpt times.1 || !truthyOpt times.2 then
    if hasAnyTimeInfo item then false else false
  else
    match timeToMinutes times.1, timeToMinutes times.2 with
    | some startMinutes, some endMinutes =>
      if endMinutes ≤ startMinutes then
        decide (startMinutes ≤ currentDate.currentMinutes) ||
          decide (currentDate.currentMinutes < endMinutes)
      else
        decide (startMinutes ≤ currentDate.currentMinutes) &&
          decide (currentDate.currentMinutes < endMinutes)
    | _, _ => false

/-- `getOpenStatus(item, currentDate)`. -/
def getOpenStatus (item : TimeFields) (currentDate : JSDate) : OpenStatus :=
  let times := getDayTimes item currentDate.day
  if !truthyOpt times.1 || !truthyOpt times.2 then
    if hasAnyTimeInfo item then .holiday else .closed
  else
    match timeToMinutes times.1, timeToMinutes times.2 with
    | some startMinutes, some endMinutes =>
      if endMinutes ≤ startMinutes then
        if decide (startMinutes ≤ currentDate.currentMinutes) ||
            decide (currentDate.currentMinutes < endMinutes) then .«open» else .closed
      else
        if decide (startMinutes ≤ currentDate.currentMinutes) &&
            decide (currentDate.currentMinutes < endMinutes) then .«open» else .closed
    | _, _ => .closed

/-- `getTodayBusinessHours(item, currentDate)`. -/
def getTodayBusinessHours (item : TimeFields) (currentDate : JSDate) :
    Option (String × String) :=
  let times := getDayTimes item currentDate.day
  if !truthyOpt times.1 || !truthyOpt times.2 then none
  else some (formatTime times.1, formatTime times.2)

end BusinessHours

/-! Concrete inputs used by the business-hours claims. -/

/-- An item whose Monday start is the (falsy) number `0` and whose Monday close
is `"0600"`. -/
def bhItem0 : BusinessHours.TimeFields :=
  { dutyTime1s := some (.num 0), dutyTime1c := some (.str "0600") }

/-- Monday 03:00. -/
def bhDate0 : BusinessHours.JSDate := ⟨1, 3, 0⟩

/-- An ordinary item: Tuesday 09:00–18:00 (close given as the number `1800`). -/
def bhItem1 : BusinessHours.TimeFields :=
  { dutyTime2s := some (.str "0900"), dutyTime2c := some (.num 1800) }

/-- Tuesday 10:30. -/
def bhDate1 : BusinessHours.JSDate := ⟨2, 10, 30⟩

namespace BusinessHours

/-- An `if` returning `open`/`closed` equals `open` exactly when its condition
holds. -/
theorem ite_open_eq (c : Bool) :
    (if c = true then OpenStatus.«open» else OpenStatus.closed) = OpenStatus.«open» ↔
      c = true := by
  cases c <;> simp

/-- `getOpenStatus` answers `open` exactly when `checkIsOpen` answers `true`,
on every input. -/
theorem status_open_iff (item : TimeFields) (d : JSDate) :
    getOpenStatus item d = OpenStatus.«open» ↔ checkIsOpen item d = true := by
  simp only [checkIsOpen, getOpenStatus]
  by_cases hc : (!truthyOpt (getDayTimes item d.day).1 || !truthyOpt (getDayTimes item d.day).2)
      = true
  · simp only [hc, if_true]
    split <;> simp
  · rw [Bool.not_eq_true] at hc
    simp only [hc, Bool.false_eq_true, if_false]
    rcases h1 : timeToMinutes (getDayTimes item d.day).1 with _ | S <;>
      rcases h2 : timeToMinutes (getDayTimes item d.day).2 with _ | E <;>
      simp only [h1, h2]
    · simp
    · simp
    · simp
    · split <;> simp [*, ite_open_eq] <;> omega

/-- C1 (amended): when the weekday's start and end entries are present, truthy
(neither the number 0 nor an empty string) and parse to minutes `S` and `E`,
`checkIsOpen` is true iff the current minute `m` satisfies `m ≥ S ∨ m < E`
when `E ≤ S` (24-hour or overnight operation) and `S ≤ m ∧ m < E` when
`E > S`; `getOpenStatus` answers `open` under exactly the same condition. -/
theorem checkIsOpen_wraparound (item : TimeFields) (d : JSDate) (S E : Int)
    (hts : truthyOpt (getDayTimes item d.day).1 = true)
    (hte : truthyOpt (getDayTimes item d.day).2 = true)
    (hS : timeToMinutes (getDayTimes item d.day).1 = some S)
    (hE : timeToMinutes (getDayTimes item d.day).2 = some E) :
    (checkIsOpen item d = true ↔
      (if E ≤ S then S ≤ d.currentMinutes ∨ d.currentMinutes < E
       else S ≤ d.currentMinutes ∧ d.currentMinutes < E)) ∧
    (getOpenStatus item d = OpenStatus.«open» ↔ checkIsOpen item d = true) := by
  refine ⟨?_, status_open_iff item d⟩
  simp only [checkIsOpen, hts, hte, hS, hE, Bool.not_true, Bool.or_self, Bool.false_eq_true,
    if_false]
  split <;> simp

/-- C1 witness: Tuesday 09:00–18:00 at Tuesday 10:30. -/
theorem checkIsOpen_wraparound_witness :
    (checkIsOpen bhItem1 bhDate1 = true ↔
      (if (1080 : Int) ≤ 540 then 540 ≤ bhDate1.currentMinutes ∨ bhDate1.currentMinutes < 1080
       else 540 ≤ bhDate1.currentMinutes ∧ bhDate1.currentMinutes < 1080)) ∧
    (getOpenStatus bhItem1 bhDate1 = OpenStatus.«open» ↔ checkIsOpen bhItem1 bhDate1 = true) :=
  checkIsOpen_wraparound bhItem1 bhDate1 540 1080 (by decide) (by decide) (by decide) (by decide)

/-- C1 counterexample: on `bhItem0` (Monday start = number `0`, close
`"0600"`) at Monday 03:00 both entries are present and parse to minutes 0 and
360, the current minute 180 lies in `[0, 360)`, yet `checkIsOpen` answers
`false` (and `getOpenStatus` does not answer `open`), because the code's JS
falsiness test `!startTimeStr` treats the number 0 as absent. -/
theorem checkIsOpen_falsy_counterexample :
    (getDayTimes bhItem0 bhDate0.day).1 = some (JSPrim.num 0) ∧
    (getDayTimes bhItem0 bhDate0.day).2 = some (JSPrim.str "0600") ∧
    timeToMinutes (getDayTimes bhItem0 bhDate0.day).1 = some 0 ∧
    timeToMinutes (getDayTimes bhItem0 bhDate0.day).2 = some 360 ∧
    ¬ (360 : Int) ≤ 0 ∧ ((0 : Int) ≤ bhDate0.currentMinutes ∧ bhDate0.currentMinutes < 360) ∧
    checkIsOpen bhItem0 bhDate0 = false ∧ getOpenStatus bhItem0 bhDate0 ≠ OpenStatus.«open» :=
  ⟨rfl, rfl, by decide, by decide, by decide, by decide, by decide, by decide⟩

/-- C8: `checkIsOpen` answers `true` exactly when `getOpenStatus` answers
`open`, and whenever `checkIsOpen` answers `false`, `getOpenStatus` answers
`closed` or `holiday`. -/
theorem checkIsOpen_getOpenStatus_agree (item : TimeFields) (d : JSDate) :
    (checkIsOpen item d = true ↔ getOpenStatus item d = OpenStatus.«open») ∧
    (checkIsOpen item d = false →
      getOpenStatus item d = OpenStatus.closed ∨ getOpenStatus item d = OpenStatus.holiday) := by
  refine ⟨(status_open_iff item d).symm, fun hf => ?_⟩
  cases hst : getOpenStatus item d with
  | «open» => exact absurd ((status_open_iff item d).mp hst) (by simp [hf])
  | closed => exact Or.inl rfl
  | holiday => exact Or.inr rfl

/-- C8 witness: the agreement at a concrete item and date. -/
theorem checkIsOpen_getOpenStatus_agree_witness :
    (checkIsOpen bhItem0 bhDate0 = true ↔ getOpenStatus bhItem0 bhDate0 = OpenStatus.«open») ∧
    (checkIsOpen bhItem0 bhDate0 = false →
      getOpenStatus bhItem0 bhDate0 = OpenStatus.closed ∨
        getOpenStatus bhItem0 bhDate0 = OpenStatus.holiday) :=
  checkIsOpen_getOpenStatus_agree bhItem0 bhDate0

end BusinessHours
/-! ## `src/app/utils/cache.ts` -/

namespace Cache

/-- A cache entry: the stored data and its insertion timestamp. -/
structure CacheEntry (T : Type) where
  data : T
  timestamp : Int
deriving DecidableEq

/-- JS `Map.prototype.get` on an insertion-ordered association list. -/
def mapGet {β : Type} (m : List (String × β)) (key : String) : Option β :=
  (m.find? (fun p => decide (p.1 = key))).map (·.2)

/-- JS `Map.prototype.has`. -/
def mapHas {β : Type} (m : List (String × β)) (key : String) : Bool :=
  m.any (fun p => decide (p.1 = key))

/-- JS `Map.prototype.set`: update in place when the key exists (keeping its
insertion position), otherwise append at the end. -/
def mapSet {β : Type} (m : List (String × β)) (key : String) (v : β) : List (String × β) :=
  if mapHas m key then m.map (fun p => if p.1 = key then (key, v) else p) else m ++ [(key, v)]

/-- JS `Map.prototype.delete`. -/
def mapDelete {β : Type} (m : List (String × β)) (key : String) : List (String × β) :=
  m.filter (fun p => !decide (p.1 = key))

/-- The `MemoryCache` class state: the backing `Map` (in insertion order) and
the two configuration constants. -/
structure MemoryCache (T : Type) where
  cache : List (String × CacheEntry T)
  ttlMs : Int
  maxSize : Nat

/-- `new MemoryCache(ttlSeconds, maxSize)`.  `maxSize` is modelled as a
natural number (the class is only instantiated with the literals 50, 100 and
200). -/
def MemoryCache.make (T : Type) (ttlSeconds : Int) (maxSize : Nat) : MemoryCache T :=
  { cache := [], ttlMs := ttlSeconds * 1000, maxSize := maxSize }

/-- `MemoryCache.get(key)`, with `Date.now()` passed explicitly; returns the
result and the updated cache (the source mutates `this.cache`). -/
def MemoryCache.get {T : Type} (c : MemoryCache T) (key : String) (now : Int) :
    Option T × MemoryCache T :=
  match mapGet c.cache key with
  | none => (none, c)
  | some entry =>
    if c.ttlMs < now - entry.timestamp then
      (none, { c with cache := mapDelete c.cache key })
    else
      (some entry.data, c)

/-- `MemoryCache.set(key, data)`, with `Date.now()` passed explicitly.  When
the map has reached `maxSize` the source reads the first key in insertion
order and deletes it — but only if that key is truthy (`if (oldestKey)`), so
an empty-string oldest key is never evicted. -/
def MemoryCache.set {T : Type} (c : MemoryCache T) (key : String) (data : T) (now : Int) :
    MemoryCache T :=
  let cache1 :=
    if c.maxSize ≤ c.cache.length then
      match c.cache.head? with
      | some (oldestKey, _) => if oldestKey ≠ "" then mapDelete c.cache oldestKey else c.cache
      | none => c.cache
    else c.cache
  { c with cache := mapSet cache1 key ⟨data, now⟩ }

/-- `MemoryCache.clear()`. -/
def MemoryCache.clear {T : Type} (c : MemoryCache T) : MemoryCache T :=
  { c with cache := [] }

/-- `MemoryCache.size()`. -/
def MemoryCache.size {T : Type} (c : MemoryCache T) : Nat := c.cache.length

/-- One public cache operation, with its `Date.now()` value. -/
inductive CacheOp (T : Type) where
  | get (key : String) (now : Int)
  | set (key : String) (data : T) (now : Int)
  | clear
deriving DecidableEq

/-- Apply one operation to the cache state. -/
def applyOp {T : Type} (c : MemoryCache T) : CacheOp T → MemoryCache T
  | .get key now => (c.get key now).2
  | .set key data now => c.set key data now
  | .clear => c.clear

/-- Apply a sequence of operations from left to right. -/
def applyOps {T : Type} (c : MemoryCache T) (ops : List (CacheOp T)) : MemoryCache T :=
  ops.foldl applyOp c

/-- An operation whose `set` key is a nonempty string. -/
def goodOp {T : Type} : CacheOp T → Bool
  | .set key _ _ => decide (key ≠ "")
  | _ => true

/-- The invariant: the map is within the size bound and holds no
empty-string key. -/
def Bounded {T : Type} (c : MemoryCache T) : Prop :=
  c.cache.length ≤ c.maxSize ∧ ∀ p ∈ c.cache, p.1 ≠ ""

theorem mapSet_length_le {β : Type} (m : List (String × β)) (key : String) (v : β) :
    (mapSet m key v).length ≤ m.length + 1 := by
  unfold mapSet
  split
  · simp
  · simp

theorem mapDelete_length_le {β : Type} (m : List (String × β)) (key : String) :
    (mapDelete m key).length ≤ m.length :=
  List.length_filter_le _ m

theorem mapDelete_cons_self_length {β : Type} (k : String) (v : β) (t : List (String × β)) :
    (mapDelete ((k, v) :: t) k).length ≤ t.length := by
  unfold mapDelete
  rw [List.filter_cons]
  simp only [decide_eq_true_eq]
  have : (decide (k = k) : Bool) = true := by simp
  simp [this]
  exact List.length_filter_le _ t

theorem mem_mapSet {β : Type} (m : List (String × β)) (key : String) (v : β)
    (p : String × β) (h : p ∈ mapSet m key v) : p ∈ m ∨ p = (key, v) := by
  unfold mapSet at h
  split at h
  · rcases List.mem_map.mp h with ⟨q, hqm, hq⟩
    by_cases hqk : q.1 = key
    · right; rw [← hq]; simp [hqk]
    · left; rw [← hq]; simpa [hqk] using hqm
  · rcases List.mem_append.mp h with h | h
    · exact Or.inl h
    · exact Or.inr (List.mem_singleton.mp h)

theorem mem_mapDelete {β : Type} (m : List (String × β)) (key : String)
    (p : String × β) (h : p ∈ mapDelete m key) : p ∈ m :=
  List.mem_of_mem_filter h

theorem applyOp_maxSize {T : Type} (c : MemoryCache T) (op : CacheOp T) :
    (applyOp c op).maxSize = c.maxSize := by
  rcases op with ⟨key, now⟩ | ⟨key, data, now⟩ | _
  · simp only [applyOp, MemoryCache.get]
    rcases h : mapGet c.cache key with _ | e
    · simp only [h]
    · simp only [h]
      split <;> rfl
  · rfl
  · rfl

theorem applyOp_bounded {T : Type} (c : MemoryCache T) (op : CacheOp T)
    (hmax : 1 ≤ c.maxSize) (hop : goodOp op = true) (hinv : Bounded c) :
    Bounded (applyOp c op) := by
  obtain ⟨l, ttl, mx⟩ := c
  obtain ⟨hlen, hkeys⟩ := hinv
  rcases op with ⟨key, now⟩ | ⟨key, data, now⟩ | _
  · -- get: the cache is unchanged or one entry is deleted
    simp only [applyOp, MemoryCache.get]
    rcases h : mapGet l key with _ | e
    · simp only [h]
      exact ⟨hlen, hkeys⟩
    · simp only [h]
      split
      · exact ⟨le_trans (mapDelete_length_le _ _) hlen,
          fun p hp => hkeys p (mem_mapDelete _ _ _ hp)⟩
      · exact ⟨hlen, hkeys⟩
  · -- set
    simp only [goodOp, decide_eq_true_eq] at hop
    simp only [applyOp, MemoryCache.set]
    by_cases hfull : mx ≤ l.length
    · rcases l with _ | ⟨⟨k0, v0⟩, t⟩
      · simp only [List.length_nil, Nat.le_zero] at hfull
        simp only [applyOp, MemoryCache.set] at *
        omega
      · have hk0 : k0 ≠ "" := hkeys (k0, v0) (List.mem_cons_self _ _)
        simp only [hfull, if_true, List.head?_cons, hk0, ne_eq, not_false_eq_true]
        refine ⟨?_, ?_⟩
        · have h1 := mapDelete_cons_self_length k0 v0 t
          have h2 := mapSet_length_le (mapDelete ((k0, v0) :: t) k0) key
            (⟨data, now⟩ : CacheEntry T)
          have h3 : t.length + 1 ≤ mx := by simpa using hlen
          have h4 : mx ≤ t.length + 1 := by simpa using hfull
          simp only [MemoryCache.maxSize]
          omega
        · intro p hp
          rcases mem_mapSet _ _ _ _ hp with hpm | hpe
          · exact hkeys p (mem_mapDelete _ _ _ hpm)
          · rw [hpe]; exact hop
    · simp only [hfull, if_false]
      refine ⟨?_, ?_⟩
      · have h1 := mapSet_length_le l key (⟨data, now⟩ : CacheEntry T)
        have h2 : l.length < mx := Nat.lt_of_not_le hfull
        simp only [MemoryCache.maxSize]
        omega
      · intro p hp
        rcases mem_mapSet _ _ _ _ hp with hpm | hpe
        · exact hkeys p hpm
        · rw [hpe]; exact hop
  · exact ⟨by simp [applyOp, MemoryCache.clear], by simp [applyOp, MemoryCache.clear]⟩

theorem applyOps_bounded {T : Type} (c : MemoryCache T) (ops : List (CacheOp T))
    (hmax : 1 ≤ c.maxSize) (hops : ∀ op ∈ ops, goodOp op = true) (hinv : Bounded c) :
    Bounded (applyOps c ops) := by
  induction ops generalizing c with
  | nil => exact hinv
  | cons op rest ih =>
    have hmax' : 1 ≤ (applyOp c op).maxSize := by rw [applyOp_maxSize]; exact hmax
    exact ih (applyOp c op) hmax'
      (fun o ho => hops o (List.mem_cons_of_mem _ ho))
      (applyOp_bounded c op hmax (hops op (List.mem_cons_self _ _)) hinv)


theorem applyOps_maxSize {T : Type} (c : MemoryCache T) (ops : List (CacheOp T)) :
    (applyOps c ops).maxSize = c.maxSize := by
  induction ops generalizing c with
  | nil => rfl
  | cons op rest ih =>
    show (applyOps (applyOp c op) rest).maxSize = c.maxSize
    rw [ih, applyOp_maxSize]

end Cache

/-! Concrete caches used by the cache claims. -/

/-- `maxSize = 1`; a `set` under the empty-string key, then another `set`. -/
def cacheCE1 : Cache.MemoryCache Nat :=
  Cache.applyOps (Cache.MemoryCache.make Nat 60 1) [.set "" 0 0, .set "a" 1 0]

/-- `maxSize = 0`; a single `set`. -/
def cacheCE2 : Cache.MemoryCache Nat :=
  Cache.applyOps (Cache.MemoryCache.make Nat 60 0) [.set "k" 0 0]

/-- A short operation sequence with nonempty keys. -/
def cacheOpsW : List (Cache.CacheOp Nat) :=
  [.set "a" 1 0, .set "b" 2 5, .get "a" 10, .clear, .set "c" 3 20]

/-- A cache holding one fresh entry. -/
def cacheW : Cache.MemoryCache Nat := (Cache.MemoryCache.make Nat 60 10).set "a" 7 0

namespace Cache

/-- C2 counterexample: the size bound `size ≤ maxSize` is not preserved by
every `get`/`set`/`clear` sequence.  With `maxSize = 1`, setting under the
empty-string key and then under `"a"` reaches size 2, because the eviction
step `if (oldestKey)` skips a falsy (empty-string) oldest key; and with
`maxSize = 0`, a single `set` reaches size 1, because there is no entry to
evict. -/
theorem memoryCache_bound_counterexample :
    cacheCE1.size = 2 ∧ cacheCE1.maxSize = 1 ∧ ¬ cacheCE1.size ≤ cacheCE1.maxSize ∧
    cacheCE2.size = 1 ∧ cacheCE2.maxSize = 0 ∧ ¬ cacheCE2.size ≤ cacheCE2.maxSize := by
  decide

/-- C2 (amended): for every `MemoryCache` constructed with `maxSize ≥ 1`,
every sequence of `get`/`set`/`clear` operations whose `set` keys are
nonempty strings preserves `size ≤ maxSize`; and a `set` on a cache whose
size has reached `maxSize` first evicts the first-inserted (oldest) entry —
provided that entry's key is truthy — before inserting the new one. -/
theorem memoryCache_bounded (T : Type) (ttlSeconds : Int) (maxSize : Nat)
    (ops : List (CacheOp T)) (hmax : 1 ≤ maxSize)
    (hops : ∀ op ∈ ops, goodOp op = true) :
    (applyOps (MemoryCache.make T ttlSeconds maxSize) ops).size ≤ maxSize ∧
    (∀ (c : MemoryCache T) (key : String) (data : T) (now : Int) (oldestKey : String)
        (e : CacheEntry T),
      c.maxSize ≤ c.cache.length → c.cache.head? = some (oldestKey, e) → oldestKey ≠ "" →
      (c.set key data now).cache = mapSet (mapDelete c.cache oldestKey) key ⟨data, now⟩) := by
  constructor
  · have h := applyOps_bounded (MemoryCache.make T ttlSeconds maxSize) ops (by simpa) hops
      ⟨by simp [MemoryCache.make], by simp [MemoryCache.make]⟩
    have hm : (applyOps (MemoryCache.make T ttlSeconds maxSize) ops).maxSize = maxSize :=
      applyOps_maxSize (MemoryCache.make T ttlSeconds maxSize) ops
    exact le_trans h.1 (le_of_eq hm)
  · intro c key data now oldestKey e hfull hhead hne
    simp only [MemoryCache.set, hfull, if_true, hhead, hne, ne_eq, not_false_eq_true]

/-- C2 witness: a concrete sequence on a `maxSize = 2` cache stays within the
bound. -/
theorem memoryCache_bounded_witness :
    (applyOps (MemoryCache.make Nat 60 2) cacheOpsW).size ≤ 2 :=
  (memoryCache_bounded Nat 60 2 cacheOpsW (by decide) (by decide)).1

/-- C3: `get(key)` returns `null` when no entry is stored for `key`; when the
stored entry's age exceeds `ttlMs` it deletes the entry and returns `null`;
and otherwise it returns the stored data unchanged (cache untouched). -/
theorem memoryCache_get_ttl {T : Type} (c : MemoryCache T) (key : String) (now : Int) :
    (mapGet c.cache key = none → c.get key now = (none, c)) ∧
    (∀ e, mapGet c.cache key = some e → c.ttlMs < now - e.timestamp →
      c.get key now = (none, { c with cache := mapDelete c.cache key })) ∧
    (∀ e, mapGet c.cache key = some e → now - e.timestamp ≤ c.ttlMs →
      c.get key now = (some e.data, c)) := by
  refine ⟨fun h => ?_, fun e he hexp => ?_, fun e he hfresh => ?_⟩
  · simp [MemoryCache.get, h]
  · simp [MemoryCache.get, he, hexp]
  · simp [MemoryCache.get, he, not_lt.mpr hfresh]

/-- C3 witness: a fresh entry is returned unchanged. -/
theorem memoryCache_get_ttl_witness :
    cacheW.get "a" 1000 = (some 7, cacheW) :=
  (memoryCache_get_ttl cacheW "a" 1000).2.2 ⟨7, 0⟩ (by decide) (by decide)

end Cache

/-! ## `fetchWithRetry` from `src/app/utils/apiUtils.ts` -/

namespace ApiUtils

/-- An HTTP response as the retry helper inspects it: its status code plus an
opaque payload distinguishing responses. -/
structure JSResponse (β : Type) where
  status : Int
  payload : β
deriving DecidableEq

/-- Outcome of one `fetch` attempt: it threw (network error, or the
`AbortController` timeout firing) or delivered a response. -/
inductive AttemptResult (ε β : Type) where
  | threw (e : ε)
  | respond (r : JSResponse β)
deriving DecidableEq

/-- `FetchWithRetryOptions` with the source's defaults.  `maxRetries` is
modelled as a natural number (every call site uses the literal default 2). -/
structure RetryOptions where
  maxRetries : Nat := 2
  retryDelay : Int := 500
  timeout : Int := 10000
deriving DecidableEq

/-- The `for (attempt = 0; attempt <= maxRetries; attempt++)` loop of
`fetchWithRetry`.  The attempt outcomes are given by the oracle `o`; `fuel`
is `maxRetries + 1 - attempt` at every call (the wrapper starts with
`maxRetries + 1` at attempt 0 and both move in lockstep), so running out of
fuel is exactly the loop condition failing, at which point the source throws
`lastError || new Error('요청 실패')` — `Except.error (some e)` models
rethrowing `lastError` and `Except.error none` the fresh error.  Alongside
the result the model returns a trace: the attempts made, as
`(attempt index, milliseconds after which this attempt's AbortController is
scheduled to abort it)` pairs in order, and the backoff delays awaited, in
milliseconds, in order. -/
def fetchLoop {ε β : Type} (o : Nat → AttemptResult ε β) (opts : RetryOptions) :
    Nat → Nat → Option ε →
    Except (Option ε) (JSResponse β) × List (Nat × Int) × List Int
  | 0, _, lastError => (.error lastError, [], [])
  | fuel + 1, attempt, lastError =>
    match o attempt with
    | .respond r =>
      if 500 ≤ r.status ∧ attempt < opts.maxRetries then
        -- 5xx before the final attempt: delay, then continue
        let rest := fetchLoop o opts fuel (attempt + 1) lastError
        (rest.1, (attempt, opts.timeout) :: rest.2.1,
          opts.retryDelay * ((attempt : Int) + 1) :: rest.2.2)
      else
        (.ok r, [(attempt, opts.timeout)], [])
    | .threw e =>
      if attempt < opts.maxRetries then
        -- failure before the final attempt: delay, then continue
        let rest := fetchLoop o opts fuel (attempt + 1) (some e)
        (rest.1, (attempt, opts.timeout) :: rest.2.1,
          opts.retryDelay * ((attempt : Int) + 1) :: rest.2.2)
      else
        -- failure on the final attempt: the loop ends and the error is thrown
        let rest := fetchLoop o opts fuel (attempt + 1) (some e)
        (rest.1, (attempt, opts.timeout) :: rest.2.1, rest.2.2)

/-- `fetchWithRetry(url, options)` with the per-attempt outcomes abstracted
into the oracle `o`. -/
def fetchWithRetry {ε β : Type} (o : Nat → AttemptResult ε β) (opts : RetryOptions) :
    Except (Option ε) (JSResponse β) × List (Nat × Int) × List Int :=
  fetchLoop o opts (opts.maxRetries + 1) 0 none

/-- An attempt outcome on which the source would retry: a thrown error or a
5xx response. -/
def attemptFailed {ε β : Type} : AttemptResult ε β → Bool
  | .threw _ => true
  | .respond r => decide (500 ≤ r.status)

/-- Full characterisation of the retry loop, proved by induction on the fuel
under the lockstep invariant `attempt + fuel = maxRetries + 1`. -/
theorem fetchLoop_spec {ε β : Type} (o : Nat → AttemptResult ε β) (opts : RetryOptions) :
    ∀ fuel attempt lastError, attempt + fuel = opts.maxRetries + 1 →
    (1 ≤ fuel → 1 ≤ (fetchLoop o opts fuel attempt lastError).2.1.length) ∧
    (fetchLoop o opts fuel attempt lastError).2.1 =
      (List.range' attempt (fetchLoop o opts fuel attempt lastError).2.1.length).map
        (fun i => (i, opts.timeout)) ∧
    attempt + (fetchLoop o opts fuel attempt lastError).2.1.length ≤ opts.maxRetries + 1 ∧
    (fetchLoop o opts fuel attempt lastError).2.2 =
      (List.range' attempt ((fetchLoop o opts fuel attempt lastError).2.1.length - 1)).map
        (fun (i : Nat) => opts.retryDelay * ((i : Int) + 1)) ∧
    (∀ i, attempt ≤ i → i + 1 < attempt + (fetchLoop o opts fuel attempt lastError).2.1.length →
      attemptFailed (o i) = true) ∧
    (∀ e', (fetchLoop o opts fuel attempt lastError).1 = .error e' →
      attempt + (fetchLoop o opts fuel attempt lastError).2.1.length = opts.maxRetries + 1 ∧
      ((∃ er, o opts.maxRetries = .threw er ∧ e' = some er) ∨
        ((fetchLoop o opts fuel attempt lastError).2.1.length = 0 ∧ e' = lastError))) ∧
    (∀ r, (fetchLoop o opts fuel attempt lastError).1 = .ok r →
      o (attempt + (fetchLoop o opts fuel attempt lastError).2.1.length - 1) = .respond r ∧
      (r.status < 500 ∨
        attempt + (fetchLoop o opts fuel attempt lastError).2.1.length - 1 =
          opts.maxRetries)) := by
  intro fuel
  induction fuel with
  | zero =>
    intro attempt lastError hlock
    have hres : fetchLoop o opts 0 attempt lastError = (.error lastError, [], []) := rfl
    rw [hres]
    refine ⟨by simp, by simp, ?_, by simp, ?_, ?_, by simp⟩
    · simp only [List.length_nil]
      omega
    · intro i h1 h2
      simp only [List.length_nil] at h2
      omega
    · intro e' he'
      simp only [Except.error.injEq] at he'
      subst he'
      exact ⟨by simp only [List.length_nil]; omega, Or.inr ⟨by simp, rfl⟩⟩
  | succ fuel ih =>
    intro attempt lastError hlock
    have hatt : attempt ≤ opts.maxRetries := by omega
    rcases ho : o attempt with e | r
    · -- the attempt threw
      by_cases hlt : attempt < opts.maxRetries
      · have hrest := ih (attempt + 1) (some e) (by omega)
        obtain ⟨r1, r2, r3, r4, r5, r6, r7⟩ := hrest
        have hfuel1 : 1 ≤ fuel := by omega
        have hn1 := r1 hfuel1
        simp only [fetchLoop, ho, hlt, if_true, List.length_cons]
        refine ⟨fun _ => by omega, ?_, by omega, ?_, ?_, ?_, ?_⟩
        · rw [List.range'_succ, List.map_cons]
          exact congrArg _ r2
        · have : (fetchLoop o opts fuel (attempt + 1) (some e)).2.1.length + 1 - 1 =
              ((fetchLoop o opts fuel (attempt + 1) (some e)).2.1.length - 1) + 1 := by omega
          rw [this, List.range'_succ, List.map_cons]
          exact congrArg _ r4
        · intro i hi hi2
          rcases Nat.eq_or_lt_of_le hi with rfl | hi'
          · simp [attemptFailed, ho]
          · exact r5 i hi' (by omega)
        · intro e' he'
          obtain ⟨h1, h2⟩ := r6 e' he'
          refine ⟨by omega, ?_⟩
          rcases h2 with h2 | ⟨h20, _⟩
          · exact Or.inl h2
          · omega
        · intro r hr
          obtain ⟨h1, h2⟩ := r7 r hr
          constructor
          · have : attempt + ((fetchLoop o opts fuel (attempt + 1) (some e)).2.1.length + 1) - 1 =
                attempt + 1 + (fetchLoop o opts fuel (attempt + 1) (some e)).2.1.length - 1 := by
              omega
            rw [this]
            exact h1
          · rcases h2 with h2 | h2
            · exact Or.inl h2
            · exact Or.inr (by omega)
      · -- threw on the final attempt: the loop ends and rethrows
        have hfin : attempt = opts.maxRetries := by omega
        have hfuel0 : fuel = 0 := by omega
        subst hfuel0
        simp only [fetchLoop, ho, hlt, if_false, List.length_cons, List.length_nil]
        refine ⟨fun _ => by omega, by simp [List.range'], by omega, by simp, ?_, ?_, by simp⟩
        · intro i hi hi2
          omega
        · intro e' he'
          cases he'
          exact ⟨by omega, Or.inl ⟨e, by rw [← hfin]; exact ho, rfl⟩⟩
    · -- the attempt got a response
      by_cases hretry : 500 ≤ r.status ∧ attempt < opts.maxRetries
      · have hrest := ih (attempt + 1) lastError (by omega)
        obtain ⟨r1, r2, r3, r4, r5, r6, r7⟩ := hrest
        have hfuel1 : 1 ≤ fuel := by omega
        have hn1 := r1 hfuel1
        simp only [fetchLoop, ho]
        rw [if_pos hretry]
        simp only [List.length_cons]
        refine ⟨fun _ => by omega, ?_, by omega, ?_, ?_, ?_, ?_⟩
        · rw [List.range'_succ, List.map_cons]
          exact congrArg _ r2
        · have : (fetchLoop o opts fuel (attempt + 1) lastError).2.1.length + 1 - 1 =
              ((fetchLoop o opts fuel (attempt + 1) lastError).2.1.length - 1) + 1 := by omega
          rw [this, List.range'_succ, List.map_cons]
          exact congrArg _ r4
        · intro i hi hi2
          rcases Nat.eq_or_lt_of_le hi with rfl | hi'
          · simp [attemptFailed, ho, hretry.1]
          · exact r5 i hi' (by omega)
        · intro e' he'
          obtain ⟨h1, h2⟩ := r6 e' he'
          refine ⟨by omega, ?_⟩
          rcases h2 with h2 | ⟨h20, _⟩
          · exact Or.inl h2
          · omega
        · intro rr hrr
          obtain ⟨h1, h2⟩ := r7 rr hrr
          constructor
          · have : attempt + ((fetchLoop o opts fuel (attempt + 1) lastError).2.1.length + 1) - 1 =
                attempt + 1 + (fetchLoop o opts fuel (attempt + 1) lastError).2.1.length - 1 := by
              omega
            rw [this]
            exact h1
          · rcases h2 with h2 | h2
            · exact Or.inl h2
            · exact Or.inr (by omega)
      · -- the response is returned
        simp only [fetchLoop, ho]
        rw [if_neg hretry]
        simp only [List.length_cons, List.length_nil]
        refine ⟨fun _ => by omega, by simp [List.range'], by omega, by simp, ?_, by simp, ?_⟩
        · intro i hi hi2
          omega
        · intro rr hrr
          cases hrr
          rw [Decidable.not_and_iff_or_not] at hretry
          refine ⟨by simpa using ho, ?_⟩
          rcases hretry with h | h
          · exact Or.inl (by omega)
          · exact Or.inr (by omega)

/-- C4: `fetchWithRetry` performs at most `maxRetries + 1` attempts; the
attempts are numbered consecutively from 0 and each is guarded by an
`AbortController` scheduled to abort it after `timeout` milliseconds; the
delays awaited are exactly `retryDelay * (k + 1)` before retry `k + 1`; and a
retry happens only after an attempt that threw or returned a status ≥ 500
before the final attempt. -/
theorem fetchWithRetry_bounded {ε β : Type} (o : Nat → AttemptResult ε β)
    (opts : RetryOptions) :
    (fetchWithRetry o opts).2.1.length ≤ opts.maxRetries + 1 ∧
    (fetchWithRetry o opts).2.1 =
      (List.range (fetchWithRetry o opts).2.1.length).map (fun i => (i, opts.timeout)) ∧
    (fetchWithRetry o opts).2.2 =
      (List.range ((fetchWithRetry o opts).2.1.length - 1)).map
        (fun (i : Nat) => opts.retryDelay * ((i : Int) + 1)) ∧
    (∀ i, i + 1 < (fetchWithRetry o opts).2.1.length → attemptFailed (o i) = true) := by
  simp only [fetchWithRetry]
  obtain ⟨h1, h2, h3, h4, h5, h6, h7⟩ :=
    fetchLoop_spec o opts (opts.maxRetries + 1) 0 none (by omega)
  refine ⟨by omega, ?_, ?_, ?_⟩
  · rw [List.range_eq_range']
    exact h2
  · rw [List.range_eq_range']
    exact h4
  · intro i hi
    exact h5 i (Nat.zero_le i) (by omega)

/-- A constant oracle: every attempt throws error 5. -/
def retryOracleW : Nat → AttemptResult Nat Nat := fun _ => .threw 5

/-- The source's default options (`maxRetries = 2`). -/
def retryOptsW : RetryOptions := {}

/-- C4 witness: with the default options and an always-throwing fetch, at
most three attempts are made. -/
theorem fetchWithRetry_bounded_witness :
    (fetchWithRetry retryOracleW retryOptsW).2.1.length ≤ retryOptsW.maxRetries + 1 :=
  (fetchWithRetry_bounded retryOracleW retryOptsW).1

/-- C9 (amended): `fetchWithRetry` throws iff all `maxRetries + 1` attempts
were performed and the final one threw — every earlier attempt having thrown
or returned a 5xx response — and it rethrows the final attempt's error; any
performed attempt that obtains a response with status < 500, or a response on
the final attempt, has that response returned (so a 5xx response on the final
attempt is returned, not thrown). -/
theorem fetchWithRetry_throw_iff {ε β : Type} (o : Nat → AttemptResult ε β)
    (opts : RetryOptions) :
    (∀ e, (fetchWithRetry o opts).1 = .error e →
      (∃ er, o opts.maxRetries = .threw er ∧ e = some er) ∧
      (fetchWithRetry o opts).2.1.length = opts.maxRetries + 1) ∧
    (∀ er, o opts.maxRetries = .threw er →
      (fetchWithRetry o opts).2.1.length = opts.maxRetries + 1 →
      (fetchWithRetry o opts).1 = .error (some er)) ∧
    (∀ i r, i < (fetchWithRetry o opts).2.1.length → o i = .respond r →
      (r.status < 500 ∨ i = opts.maxRetries) → (fetchWithRetry o opts).1 = .ok r) := by
  simp only [fetchWithRetry]
  obtain ⟨h1, h2, h3, h4, h5, h6, h7⟩ :=
    fetchLoop_spec o opts (opts.maxRetries + 1) 0 none (by omega)
  have hn1 : 1 ≤ (fetchLoop o opts (opts.maxRetries + 1) 0 none).2.1.length := h1 (by omega)
  refine ⟨?_, ?_, ?_⟩
  · intro e he
    obtain ⟨ha, hb⟩ := h6 e he
    rcases hb with hb | ⟨hb0, _⟩
    · exact ⟨hb, by omega⟩
    · omega
  · intro er her hlen
    rcases hres : (fetchLoop o opts (opts.maxRetries + 1) 0 none).1 with e' | r
    · obtain ⟨ha, hb⟩ := h6 e' hres
      rcases hb with ⟨er', her', rfl⟩ | ⟨hb0, _⟩
      · rw [her] at her'
        injection her' with h
        rw [h]
      · omega
    · obtain ⟨ha, hb⟩ := h7 r hres
      have hidx : 0 + (fetchLoop o opts (opts.maxRetries + 1) 0 none).2.1.length - 1 =
          opts.maxRetries := by omega
      rw [hidx, her] at ha
      cases ha
  · intro i r hi hresp hgood
    by_cases hlast : i + 1 < (fetchLoop o opts (opts.maxRetries + 1) 0 none).2.1.length
    · have hfail := h5 i (Nat.zero_le i) (by omega)
      rw [hresp] at hfail
      simp only [attemptFailed, decide_eq_true_eq] at hfail
      rcases hgood with hg | hg
      · omega
      · omega
    · rcases hres : (fetchLoop o opts (opts.maxRetries + 1) 0 none).1 with e' | r'
      · obtain ⟨ha, hb⟩ := h6 e' hres
        rcases hb with ⟨er', her', _⟩ | ⟨hb0, _⟩
        · have hieq : i = opts.maxRetries := by omega
          rw [hieq, her'] at hresp
          cases hresp
        · omega
      · obtain ⟨ha, hb⟩ := h7 r' hres
        have hidx : 0 + (fetchLoop o opts (opts.maxRetries + 1) 0 none).2.1.length - 1 = i := by
          omega
        rw [hidx, hresp] at ha
        injection ha with h
        exact congrArg Except.ok h.symm

/-- C9 witness: with the always-throwing fetch the helper rethrows the final
attempt's error. -/
theorem fetchWithRetry_throw_iff_witness :
    (fetchWithRetry retryOracleW retryOptsW).1 = .error (some 5) :=
  (fetchWithRetry_throw_iff retryOracleW retryOptsW).2.1 5 rfl (by rfl)

/-- First attempt: an HTTP 500 response; second and final attempt: throws
error 7 (`maxRetries = 1`). -/
def retryOracleCE : Nat → AttemptResult Nat Nat :=
  fun n => if n = 0 then .respond ⟨500, 0⟩ else .threw 7

/-- Options with `maxRetries = 1`. -/
def retryOptsCE : RetryOptions := { maxRetries := 1, retryDelay := 500, timeout := 10000 }

/-- C9 counterexample: the helper throws (rethrowing the second attempt's
error) although not every attempt threw — the first of its two performed
attempts returned a (5xx) HTTP response. -/
theorem fetchWithRetry_throw_counterexample :
    (fetchWithRetry retryOracleCE retryOptsCE).1 = .error (some 7) ∧
    (fetchWithRetry retryOracleCE retryOptsCE).2.1.length = 2 ∧
    retryOracleCE 0 = .respond ⟨500, 0⟩ :=
  ⟨rfl, rfl, rfl⟩

end ApiUtils

/-! ## JS numbers, `parseFloat`, and the shared route helpers -/

/-- A JS `number` as the route code distinguishes them: `NaN`, the two
infinities, or a finite value (modelled exactly as a rational; the routes'
arithmetic on coordinates is abstracted, see `calculateDistance`). -/
inductive JSNumber where
  | nan
  | posInf
  | negInf
  | fin (q : ℚ)
deriving DecidableEq

/-- JS `isNaN` (on a number). -/
def JSNumber.isNaN : JSNumber → Bool
  | .nan => true
  | _ => false

/-- JS strict equality `===` on numbers: `NaN` equals nothing, including
itself. -/
def JSNumber.jsEq : JSNumber → JSNumber → Bool
  | .posInf, .posInf => true
  | .negInf, .negInf => true
  | .fin a, .fin b => decide (a = b)
  | _, _ => false

/-- JS `parseFloat` on a character list: skip whitespace, optional sign, then
the longest prefix that is `Infinity` or a decimal literal
(`digits [. digits] [e[sign]digits]`, at least one digit); no valid prefix is
`NaN`. -/
def parseFloatChars (l : List Char) : JSNumber :=
  let l1 := l.dropWhile isJsWhitespace
  let p := splitSign l1
  if "Infinity".data.isPrefixOf p.2 then
    if p.1 < 0 then .negInf else .posInf
  else
    let intDs := p.2.takeWhile isDigitChar
    let rest1 := p.2.drop intDs.length
    let frac : List Char × List Char :=
      match rest1 with
      | '.' :: r => (r.takeWhile isDigitChar, r.drop (r.takeWhile isDigitChar).length)
      | _ => ([], rest1)
    if intDs.isEmpty && frac.1.isEmpty then .nan
    else
      let mant : ℚ := (digitsToNat intDs : ℚ) + (digitsToNat frac.1 : ℚ) / (10 : ℚ) ^ frac.1.length
      let exp : Int :=
        match frac.2 with
        | c :: r =>
          if c = 'e' || c = 'E' then
            let pe := splitSign r
            let eds := pe.2.takeWhile isDigitChar
            if eds.isEmpty then 0 else pe.1 * (digitsToNat eds : Int)
          else 0
        | [] => 0
      .fin ((p.1 : ℚ) * mant * (10 : ℚ) ^ exp)

/-- JS `parseFloat(s)`. -/
def parseFloat (s : String) : JSNumber := parseFloatChars s.data

/-- JS `Math.round`: round half toward positive infinity. -/
def jsRound (q : ℚ) : Int := Int.floor (q + 1 / 2)

/-- An XML-parsed field the routes read as `number | string` (coordinates,
distances). -/
inductive NumOrStr where
  | num (q : ℚ)
  | str (s : String)
deriving DecidableEq

/-- JS truthiness of a `number | string` value. -/
def NumOrStr.truthy : NumOrStr → Bool
  | .num q => q ≠ 0
  | .str s => s ≠ ""

/-- JS truthiness of a possibly-`undefined` `number | string` value. -/
def truthyNumOpt : Option NumOrStr → Bool
  | none => false
  | some v => v.truthy

/-- `typeof v === 'string' ? parseFloat(v) : v` on a possibly-`undefined`
value (an `undefined` used as a number is `NaN`). -/
def toJSNumber : Option NumOrStr → JSNumber
  | none => .nan
  | some (.num q) => .fin q
  | some (.str s) => parseFloat s

/-- The `id` field: `item.hpid || `pharmacy_${lat}_${lng}``.  The fallback
template string is kept structurally (JS float-to-string formatting is not
modelled). -/
inductive PlaceId where
  | hpid (s : String)
  | coords (lat lng : JSNumber)
deriving DecidableEq

/-- Build the `id` from `hpid` and the parsed coordinates. -/
def makePlaceId (hpid : Option String) (lat lng : JSNumber) : PlaceId :=
  match hpid with
  | some h => if h ≠ "" then .hpid h else .coords lat lng
  | none => .coords lat lng

/-- JS `Array.prototype.findIndex`: index of the first match, `-1` when there
is none. -/
def jsFindIndex {α : Type} (pred : α → Bool) (l : List α) : Int :=
  match l.findIdx? pred with
  | some i => (i : Int)
  | none => -1

namespace ApiUtils

/-- `removeDuplicatesByCoords` from `src/app/utils/apiUtils.ts`:
`places.filter((place, index, self) => index === self.findIndex(p => p.lat
=== place.lat && p.lng === place.lng))`, generic over the two accessors. -/
def removeDuplicatesBy {α : Type} (eq : α → α → Bool) (l : List α) : List α :=
  (l.enum.filter (fun p => decide ((p.1 : Int) = jsFindIndex (fun q => eq q p.2) l))).map Prod.snd

/-- The coordinate equality the filter uses (`===` on both components). -/
def coordEqBy {α : Type} (latOf lngOf : α → JSNumber) (a b : α) : Bool :=
  (latOf a).jsEq (latOf b) && (lngOf a).jsEq (lngOf b)

/-- `removeDuplicatesByCoords` proper. -/
def removeDuplicatesByCoords {α : Type} (latOf lngOf : α → JSNumber) (l : List α) : List α :=
  removeDuplicatesBy (coordEqBy latOf lngOf) l

end ApiUtils

/-- The sort key of `(a, b) => (a.distance || Infinity) - (b.distance ||
Infinity)`: an absent — or falsy, i.e. zero — distance compares as
`Infinity` (and the `Infinity - Infinity = NaN` comparator value means the
sort treats two such elements as tied). -/
def distKey (d : Option Int) : WithTop Int :=
  match d with
  | none => ⊤
  | some n => if n = 0 then ⊤ else (n : WithTop Int)

/-- `places.sort((a, b) => (a.distance || Infinity) - (b.distance ||
Infinity))`, modelled as the stable sort in the comparator's induced order
(ECMAScript sort is stable and this comparator is consistent). -/
def sortByDistance {α : Type} (distOf : α → Option Int) (l : List α) : List α :=
  l.mergeSort (fun a b => decide (distKey (distOf a) ≤ distKey (distOf b)))

theorem sortByDistance_sorted {α : Type} (distOf : α → Option Int) (l : List α) :
    (sortByDistance distOf l).Pairwise (fun a b => distKey (distOf a) ≤ distKey (distOf b)) := by
  have h := @List.sorted_mergeSort α
    (fun a b => decide (distKey (distOf a) ≤ distKey (distOf b)))
    (fun a b c hab hbc => by
      simp only [decide_eq_true_eq] at *
      exact le_trans hab hbc)
    (fun a b => by
      simp only [Bool.or_eq_true, decide_eq_true_eq]
      exact le_total _ _)
    l
  exact h.imp_of_mem (fun _ _ hab => by simpa using hab)

theorem sortByDistance_perm {α : Type} (distOf : α → Option Int) (l : List α) :
    (sortByDistance distOf l).Perm l :=
  List.mergeSort_perm l _

namespace ApiUtils

theorem jsFindIndex_eq_none {α : Type} (p : α → Bool) (l : List α)
    (h : l.findIdx? p = none) : jsFindIndex p l = -1 := by
  simp [jsFindIndex, h]

theorem jsFindIndex_eq_some {α : Type} (p : α → Bool) (l : List α) (k : Nat)
    (h : l.findIdx? p = some k) : jsFindIndex p l = (k : Int) := by
  simp [jsFindIndex, h]

/-- An index is its own `findIndex` exactly when its element matches itself
and no earlier element matches it. -/
theorem kept_iff {α : Type} (eq : α → α → Bool) (l : List α) (i : Nat) (hi : i < l.length) :
    ((i : Int) = jsFindIndex (fun q => eq q l[i]) l) ↔
      (eq l[i] l[i] = true ∧ ∀ j (_ : j < l.length), j < i → eq l[j] l[i] = false) := by
  rcases h : l.findIdx? (fun q => eq q l[i]) with _ | k
  · rw [jsFindIndex_eq_none _ _ h]
    rw [List.findIdx?_eq_none_iff] at h
    constructor
    · intro habs
      exfalso
      omega
    · rintro ⟨h1, -⟩
      have := h l[i] (l.getElem_mem hi)
      simp only [h1] at this
      cases this
  · rw [jsFindIndex_eq_some _ _ _ h]
    rw [List.findIdx?_eq_some_iff_getElem] at h
    obtain ⟨hk, hpk, hmin⟩ := h
    constructor
    · intro hik
      have hik' : i = k := by omega
      subst hik'
      refine ⟨hpk, fun j hj hji => ?_⟩
      have := hmin j hji
      simpa using this
    · rintro ⟨hself, hfirst⟩
      have hki : ¬ k < i := by
        intro hlt
        have := hfirst k hk hlt
        rw [this] at hpk
        cases hpk
      have hik : ¬ i < k := by
        intro hlt
        have := hmin i hlt
        simp only [hself, not_true_eq_false] at this
      omega

/-- Membership in the deduplicated list: exactly the first occurrence of each
(self-matching) element class survives. -/
theorem mem_removeDuplicatesBy {α : Type} (eq : α → α → Bool) (l : List α) (x : α) :
    x ∈ removeDuplicatesBy eq l ↔
      ∃ i, ∃ (hi : i < l.length), l[i] = x ∧ eq l[i] l[i] = true ∧
        ∀ j (_ : j < l.length), j < i → eq l[j] l[i] = false := by
  unfold removeDuplicatesBy
  rw [List.mem_map]
  constructor
  · rintro ⟨⟨i, y⟩, hp, rfl⟩
    rw [List.mem_filter] at hp
    obtain ⟨hmem, hkept⟩ := hp
    rw [List.mem_enum_iff_getElem?, List.getElem?_eq_some_iff] at hmem
    obtain ⟨hi, hval⟩ := hmem
    rw [decide_eq_true_eq] at hkept
    rw [← hval] at hkept
    obtain ⟨hself, hfirst⟩ := (kept_iff eq l i hi).mp hkept
    exact ⟨i, hi, hval, hself, hfirst⟩
  · rintro ⟨i, hi, rfl, hself, hfirst⟩
    refine ⟨(i, l[i]), ?_, rfl⟩
    rw [List.mem_filter]
    constructor
    · rw [List.mem_enum_iff_getElem?, List.getElem?_eq_some_iff]
      exact ⟨hi, rfl⟩
    · rw [decide_eq_true_eq]
      exact (kept_iff eq l i hi).mpr ⟨hself, hfirst⟩

/-- The deduplicated list is a sublist of the input. -/
theorem removeDuplicatesBy_sublist {α : Type} (eq : α → α → Bool) (l : List α) :
    (removeDuplicatesBy eq l).Sublist l := by
  unfold removeDuplicatesBy
  have h1 : (l.enum.filter
      (fun p => decide ((p.1 : Int) = jsFindIndex (fun q => eq q p.2) l))).Sublist l.enum :=
    List.filter_sublist _
  have h2 := h1.map Prod.snd
  rw [List.enum_map_snd] at h2
  exact h2

/-- No two elements of the deduplicated list match each other. -/
theorem removeDuplicatesBy_pairwise {α : Type} (eq : α → α → Bool) (l : List α) :
    (removeDuplicatesBy eq l).Pairwise (fun a b => eq a b = false) := by
  unfold removeDuplicatesBy
  rw [List.pairwise_map]
  have henum : l.enum.Pairwise (fun p q => p.1 < q.1) := by
    rw [List.pairwise_iff_getElem]
    intro i j hi hj hij
    rw [List.getElem_enum, List.getElem_enum]
    simpa using hij
  have hfilter := henum.filter
    (fun p => decide ((p.1 : Int) = jsFindIndex (fun q => eq q p.2) l))
  refine hfilter.imp_of_mem ?_
  intro p q hp hq hlt
  rw [List.mem_filter] at hp hq
  obtain ⟨hpmem, hpkept⟩ := hp
  obtain ⟨hqmem, hqkept⟩ := hq
  rw [List.mem_enum_iff_getElem?, List.getElem?_eq_some_iff] at hpmem hqmem
  obtain ⟨hpi, hpv⟩ := hpmem
  obtain ⟨hqi, hqv⟩ := hqmem
  rw [decide_eq_true_eq] at hqkept
  rw [← hqv] at hqkept
  obtain ⟨-, hfirst⟩ := (kept_iff eq l q.1 hqi).mp hqkept
  have := hfirst p.1 hpi hlt
  rw [hpv, hqv] at this
  exact this

/-- Every self-matching element of the input has a representative (its class's
first occurrence) in the deduplicated list, when the match relation is a
partial equivalence. -/
theorem removeDuplicatesBy_exists_rep {α : Type} (eq : α → α → Bool)
    (hsymm : ∀ a b, eq a b = true → eq b a = true)
    (htrans : ∀ a b c, eq a b = true → eq b c = true → eq a c = true)
    (l : List α) (x : α) (hx : x ∈ l) (hself : eq x x = true) :
    ∃ y ∈ removeDuplicatesBy eq l, eq y x = true := by
  rcases h : l.findIdx? (fun q => eq q x) with _ | k
  · rw [List.findIdx?_eq_none_iff] at h
    have := h x hx
    rw [hself] at this
    cases this
  · rw [List.findIdx?_eq_some_iff_getElem] at h
    obtain ⟨hk, hpk, hmin⟩ := h
    have hpk' : eq l[k] x = true := by simpa using hpk
    refine ⟨l[k], ?_, hpk'⟩
    rw [mem_removeDuplicatesBy]
    refine ⟨k, hk, rfl, htrans _ _ _ hpk' (hsymm _ _ hpk'), ?_⟩
    intro j hj hjk
    by_contra habs
    rw [Bool.not_eq_false] at habs
    have hjx : eq l[j] x = true := htrans _ _ _ habs hpk'
    have := hmin j hjk
    simp only [hjx, not_true_eq_false] at this

end ApiUtils

/-- `===` on numbers is symmetric. -/
theorem JSNumber.jsEq_symm (a b : JSNumber) : a.jsEq b = true → b.jsEq a = true := by
  cases a <;> cases b <;> simp [JSNumber.jsEq, eq_comm]

/-- `===` on numbers is transitive. -/
theorem JSNumber.jsEq_trans (a b c : JSNumber) :
    a.jsEq b = true → b.jsEq c = true → a.jsEq c = true := by
  cases a <;> cases b <;> cases c <;> simp [JSNumber.jsEq] <;> intro h1 h2 <;> simp [h1, h2]

/-- Coordinate equality is symmetric. -/
theorem coordEqBy_symm {α : Type} (latOf lngOf : α → JSNumber) (a b : α) :
    ApiUtils.coordEqBy latOf lngOf a b = true → ApiUtils.coordEqBy latOf lngOf b a = true := by
  simp only [ApiUtils.coordEqBy, Bool.and_eq_true]
  rintro ⟨h1, h2⟩
  exact ⟨JSNumber.jsEq_symm _ _ h1, JSNumber.jsEq_symm _ _ h2⟩

/-- Coordinate equality is transitive. -/
theorem coordEqBy_trans {α : Type} (latOf lngOf : α → JSNumber) (a b c : α) :
    ApiUtils.coordEqBy latOf lngOf a b = true → ApiUtils.coordEqBy latOf lngOf b c = true →
    ApiUtils.coordEqBy latOf lngOf a c = true := by
  simp only [ApiUtils.coordEqBy, Bool.and_eq_true]
  rintro ⟨h1, h2⟩ ⟨h3, h4⟩
  exact ⟨JSNumber.jsEq_trans _ _ _ h1 h3, JSNumber.jsEq_trans _ _ _ h2 h4⟩

/-! ## The coordinate-based pharmacies route (`getParmacyLcinfoInqire` handler
in `src/app/api/pharmacies/route.ts`) -/

namespace PharmacyLocationRoute

/-- `PharmacyLocationApiItem`: the XML items of the coordinate-based API. -/
structure PharmacyLocationApiItem where
  dutyName : Option String := none
  dutyAddr : Option String := none
  dutyTel1 : Option String := none
  latitude : Option NumOrStr := none
  longitude : Option NumOrStr := none
  distance : Option ℚ := none
  hpid : Option String := none
  startTime : Option JSPrim := none
  endTime : Option JSPrim := none
  dutyDiv : Option String := none
  dutyDivName : Option String := none
deriving DecidableEq

/-- This route's `parseTimeToMinutes` (no length guard, unlike the shared
`timeToMinutes` — but that guard is dead there, see
`parseTimeToMinutes_eq_timeToMinutes`). -/
def parseTimeToMinutes (time : Option JSPrim) : Option Int :=
  match time with
  | none => none
  | some v =>
    let str := jsPadStart v.toJsString 4 '0'
    match jsParseInt (jsSubstring str 0 2), jsParseInt (jsSubstring str 2 4) with
    | some hours, some minutes => some (hours * 60 + minutes)
    | _, _ => none

/-- This route's `formatTime`. -/
def formatTime (time : Option JSPrim) : String :=
  match time with
  | none => "-"
  | some v =>
    let str := jsPadStart v.toJsString 4 '0'
    match jsParseInt (jsSubstring str 0 2), jsParseInt (jsSubstring str 2 4) with
    | some hours, some minutes =>
      let period := if 12 ≤ hours then "오후" else "오전"
      let displayHours : Int := if 12 < hours then hours - 12 else if hours = 0 then 12 else hours
      let displayMinutes := jsPadStart (toString minutes) 2 '0'
      period ++ " " ++ toString displayHours ++ ":" ++ displayMinutes
    | _, _ => "-"

/-- This route's local `checkIsOpen(startTime, endTime)` (`new Date()` passed
explicitly): times that are missing or unparsable mean "assume open". -/
def checkIsOpen (startTime endTime : Option JSPrim) (now : BusinessHours.JSDate) : Bool :=
  match parseTimeToMinutes startTime, parseTimeToMinutes endTime with
  | some startMinutes, some endMinutes =>
    if endMinutes ≤ startMinutes then
      decide (startMinutes ≤ now.currentMinutes) || decide (now.currentMinutes < endMinutes)
    else
      decide (startMinutes ≤ now.currentMinutes) && decide (now.currentMinutes < endMinutes)
  | _, _ => true

/-- `PlaceResponse` of this route. -/
structure PlaceResponse where
  id : PlaceId
  type : String
  name : String
  lat : JSNumber
  lng : JSNumber
  isOpen : Bool
  address : Option String := none
  phone : Option String := none
  distance : Option Int := none
  category : Option String := none
  todayHours : Option (String × String) := none
deriving DecidableEq

/-- `mapItemToPlace(item)`. -/
def mapItemToPlace (item : PharmacyLocationApiItem) (now : BusinessHours.JSDate) :
    Option PlaceResponse :=
  if !truthyNumOpt item.latitude || !truthyNumOpt item.longitude then none
  else
    let lat := toJSNumber item.latitude
    let lng := toJSNumber item.longitude
    let isOpen := checkIsOpen item.startTime item.endTime now
    let todayHours :=
      if truthyOpt item.startTime && truthyOpt item.endTime then
        some (formatTime item.startTime, formatTime item.endTime)
      else none
    some {
      id := makePlaceId item.hpid lat lng
      type := "pharmacy"
      name := jsOrStr item.dutyName "이름 없음"
      lat := lat
      lng := lng
      isOpen := isOpen
      address := item.dutyAddr
      phone := item.dutyTel1
      distance := match item.distance with
        | some dq => if dq ≠ 0 then some (jsRound (dq * 1000)) else none
        | none => none
      category := some "약국"
      todayHours := todayHours }

/-- The handler's response: HTTP status and the JSON body fields. -/
structure GetResult where
  status : Int
  success : Bool
  error : Option String := none
  count : Option Int := none
  data : List PlaceResponse := []
deriving DecidableEq

/-- The `GET` handler.  The registry fetch is abstracted: `items` is the
parsed XML item list the call would deliver (the `numOfRows` parameter only
shapes that upstream request), and the returned flag records whether the
registry API was contacted. -/
def GET (latStr lngStr : Option String) (items : List PharmacyLocationApiItem)
    (now : BusinessHours.JSDate) : GetResult × Bool :=
  let lat := parseFloat (jsOrStr latStr "")
  let lng := parseFloat (jsOrStr lngStr "")
  if lat.isNaN || lng.isNaN then
    ({ status := 400, success := false,
       error := some "유효한 lat, lng 파라미터가 필요합니다.", data := [] }, false)
  else
    let places := items.filterMap (fun item => mapItemToPlace item now)
    let sorted := sortByDistance PlaceResponse.distance places
    let uniquePlaces := ApiUtils.removeDuplicatesByCoords PlaceResponse.lat PlaceResponse.lng sorted
    ({ status := 200, success := true, count := some uniquePlaces.length,
       data := uniquePlaces }, true)

end PharmacyLocationRoute

namespace PharmacyLocationRoute

/-- The 4-padded string is never shorter than 4, so the shared
`timeToMinutes`'s length guard is dead. -/
theorem jsPadStart_four_length (s : String) (c : Char) : ¬ (jsPadStart s 4 c).length < 4 := by
  unfold jsPadStart
  split
  · omega
  · rw [String.length_append, String.length_mk]
    simp only [List.length_replicate]
    omega

/-- The route's `parseTimeToMinutes` and the shared `timeToMinutes` are
extensionally equal. -/
theorem parseTimeToMinutes_eq_timeToMinutes (t : Option JSPrim) :
    parseTimeToMinutes t = BusinessHours.timeToMinutes t := by
  rcases t with _ | v
  · rfl
  · simp only [parseTimeToMinutes, BusinessHours.timeToMinutes]
    rw [if_neg (jsPadStart_four_length v.toJsString '0')]

/-- A `TimeFields` item whose entries for the given weekday are `s`/`e` and
whose other days are absent. -/
def itemWithDay (day : Fin 7) (s e : Option JSPrim) : BusinessHours.TimeFields :=
  match day.val with
  | 0 => { dutyTime7s := s, dutyTime7c := e }
  | 1 => { dutyTime1s := s, dutyTime1c := e }
  | 2 => { dutyTime2s := s, dutyTime2c := e }
  | 3 => { dutyTime3s := s, dutyTime3c := e }
  | 4 => { dutyTime4s := s, dutyTime4c := e }
  | 5 => { dutyTime5s := s, dutyTime5c := e }
  | 6 => { dutyTime6s := s, dutyTime6c := e }
  | _ => {}

theorem getDayTimes_itemWithDay (day : Fin 7) (s e : Option JSPrim) :
    BusinessHours.getDayTimes (itemWithDay day s e) day = (s, e) := by
  rcases day with ⟨v, hv⟩
  interval_cases v <;> rfl

/-- C5 counterexample: with both time values missing, the route's status
check answers `true` (open) while the shared calculator answers `false`, so
the two disagree exactly where the claim says they agree. -/
theorem route_checkIsOpen_missing_counterexample :
    checkIsOpen none none bhDate0 = true ∧
    BusinessHours.checkIsOpen (itemWithDay bhDate0.day none none) bhDate0 = false :=
  ⟨rfl, by decide⟩

/-- C5 (amended): the route's `checkIsOpen` and the shared calculator agree
whenever the day's start and end values are truthy and parse to minutes; when
either value is missing or unparsable the route answers `true` while the
shared calculator answers `false`; and whenever either value is falsy the
shared calculator answers `false` (while the route compares the parsed
minutes). -/
theorem route_checkIsOpen_vs_shared (s e : Option JSPrim) (d : BusinessHours.JSDate) :
    (truthyOpt s = true → truthyOpt e = true →
      (parseTimeToMinutes s).isSome → (parseTimeToMinutes e).isSome →
      checkIsOpen s e d = BusinessHours.checkIsOpen (itemWithDay d.day s e) d) ∧
    (parseTimeToMinutes s = none ∨ parseTimeToMinutes e = none →
      checkIsOpen s e d = true ∧
      BusinessHours.checkIsOpen (itemWithDay d.day s e) d = false) ∧
    (truthyOpt s = false ∨ truthyOpt e = false →
      BusinessHours.checkIsOpen (itemWithDay d.day s e) d = false) := by
  refine ⟨?_, ?_, ?_⟩
  · intro hts hte hs he
    rcases hps : parseTimeToMinutes s with _ | S
    · rw [hps] at hs
      cases hs
    rcases hpe : parseTimeToMinutes e with _ | E
    · rw [hpe] at he
      cases he
    simp only [checkIsOpen, hps, hpe, BusinessHours.checkIsOpen, getDayTimes_itemWithDay,
      hts, hte, Bool.not_true, Bool.or_self, Bool.false_eq_true, if_false,
      ← parseTimeToMinutes_eq_timeToMinutes]
  · intro hor
    constructor
    · rcases hor with h | h
      · rcases hpe : parseTimeToMinutes e with _ | E <;> simp [checkIsOpen, h, hpe]
      · rcases hps : parseTimeToMinutes s with _ | S <;> simp [checkIsOpen, h, hps]
    · simp only [BusinessHours.checkIsOpen, getDayTimes_itemWithDay]
      by_cases hts : truthyOpt s
      · by_cases hte : truthyOpt e
        · simp only [hts, hte, Bool.not_true, Bool.or_self, Bool.false_eq_true, if_false,
            ← parseTimeToMinutes_eq_timeToMinutes]
          rcases hor with h | h <;> rcases hps : parseTimeToMinutes s with _ | S <;>
            rcases hpe : parseTimeToMinutes e with _ | E <;> simp_all
        · simp [hte, ite_self]
      · simp [hts, ite_self]
  · intro hor
    simp only [BusinessHours.checkIsOpen, getDayTimes_itemWithDay]
    rcases hor with h | h <;> simp [h, ite_self]

/-- Start `"0900"`, close the number `1800`. -/
def c5s : Option JSPrim := some (.str "0900")

/-- See `c5s`. -/
def c5e : Option JSPrim := some (.num 1800)

/-- C5 witness: on truthy, parsable values the two calculators agree. -/
theorem route_checkIsOpen_vs_shared_witness :
    checkIsOpen c5s c5e bhDate1 =
      BusinessHours.checkIsOpen (itemWithDay bhDate1.day c5s c5e) bhDate1 :=
  (route_checkIsOpen_vs_shared c5s c5e bhDate1).1 (by decide) (by decide) (by decide) (by decide)

end PharmacyLocationRoute

/-! ## The address-based pharmacies route (`getParmacyListInfoInqire` handler
in `src/app/api/pharmacies/route.ts`, the cached variant) -/

namespace PharmacyAddressRoute

/-- `PharmacyListApiItem`: the XML items of the address-based API, with the
weekly duty times. -/
structure PharmacyListApiItem where
  hpid : Option String := none
  dutyName : Option String := none
  dutyAddr : Option String := none
  dutyTel1 : Option String := none
  wgs84Lat : Option NumOrStr := none
  wgs84Lon : Option NumOrStr := none
  dutyTime1s : Option JSPrim := none
  dutyTime1c : Option JSPrim := none
  dutyTime2s : Option JSPrim := none
  dutyTime2c : Option JSPrim := none
  dutyTime3s : Option JSPrim := none
  dutyTime3c : Option JSPrim := none
  dutyTime4s : Option JSPrim := none
  dutyTime4c : Option JSPrim := none
  dutyTime5s : Option JSPrim := none
  dutyTime5c : Option JSPrim := none
  dutyTime6s : Option JSPrim := none
  dutyTime6c : Option JSPrim := none
  dutyTime7s : Option JSPrim := none
  dutyTime7c : Option JSPrim := none
  dutyTime8s : Option JSPrim := none
  dutyTime8c : Option JSPrim := none
deriving DecidableEq

/-- `BusinessTimeRaw` from `src/app/types/index.ts`. -/
structure BusinessTimeRaw where
  openMinutes : Option Int
  closeMinutes : Option Int
  isHoliday : Bool
deriving DecidableEq

/-- This route's `parseTimeToMinutes`: additionally treats the empty string
as absent (`time === ''`). -/
def parseTimeToMinutes (time : Option JSPrim) : Option Int :=
  match time with
  | none => none
  | some v =>
    if v = .str "" then none
    else
      let str := jsPadStart v.toJsString 4 '0'
      match jsParseInt (jsSubstring str 0 2), jsParseInt (jsSubstring str 2 4) with
      | some hours, some minutes => some (hours * 60 + minutes)
      | _, _ => none

/-- This route's `formatTime` (also with the `time === ''` guard). -/
def formatTime (time : Option JSPrim) : String :=
  match time with
  | none => "-"
  | some v =>
    if v = .str "" then "-"
    else
      let str := jsPadStart v.toJsString 4 '0'
      match jsParseInt (jsSubstring str 0 2), jsParseInt (jsSubstring str 2 4) with
      | some hours, some minutes =>
        let period := if 12 ≤ hours then "오후" else "오전"
        let displayHours : Int := if 12 < hours then hours - 12 else if hours = 0 then 12 else hours
        let displayMinutes := jsPadStart (toString minutes) 2 '0'
        period ++ " " ++ toString displayHours ++ ":" ++ displayMinutes
      | _, _ => "-"

/-- `getTodayBusinessTime(item)`: today's start/end entries (0 = Sunday). -/
def getTodayBusinessTime (item : PharmacyListApiItem) (today : BusinessHours.JSDate) :
    Option JSPrim × Option JSPrim :=
  match today.day.val with
  | 0 => (item.dutyTime7s, item.dutyTime7c)
  | 1 => (item.dutyTime1s, item.dutyTime1c)
  | 2 => (item.dutyTime2s, item.dutyTime2c)
  | 3 => (item.dutyTime3s, item.dutyTime3c)
  | 4 => (item.dutyTime4s, item.dutyTime4c)
  | 5 => (item.dutyTime5s, item.dutyTime5c)
  | 6 => (item.dutyTime6s, item.dutyTime6c)
  | _ => (none, none)

/-- `getStatusAndTimeRaw(startTime, endTime)` (`new Date()` passed
explicitly): the open flag, the three-valued status, and the raw minutes. -/
def getStatusAndTimeRaw (startTime endTime : Option JSPrim) (now : BusinessHours.JSDate) :
    Bool × BusinessHours.OpenStatus × BusinessTimeRaw :=
  match parseTimeToMinutes startTime, parseTimeToMinutes endTime with
  | some openMinutes, some closeMinutes =>
    let tr : BusinessTimeRaw := ⟨some openMinutes, some closeMinutes, false⟩
    if closeMinutes ≤ openMinutes then
      let isOpen := decide (openMinutes ≤ now.currentMinutes) ||
        decide (now.currentMinutes < closeMinutes)
      (isOpen, if isOpen then .«open» else .closed, tr)
    else
      let isOpen := decide (openMinutes ≤ now.currentMinutes) &&
        decide (now.currentMinutes < closeMinutes)
      (isOpen, if isOpen then .«open» else .closed, tr)
  | _, _ => (false, .holiday, ⟨none, none, true⟩)

/-- `PlaceResponse` of this route. -/
structure PlaceResponse where
  id : PlaceId
  type : String
  name : String
  lat : JSNumber
  lng : JSNumber
  isOpen : Bool
  openStatus : BusinessHours.OpenStatus
  address : Option String := none
  phone : Option String := none
  distance : Option Int := none
  category : Option String := none
  todayHours : Option (String × String) := none
  todayTimeRaw : Option BusinessTimeRaw := none
deriving DecidableEq

/-- The type of the distance computation.  `calculateDistance` itself is
floating-point haversine trigonometry (`Math.sin`/`Math.cos`/`Math.atan2`),
which has no computable shallow embedding; the handler is proved for every
such function. -/
def DistanceFn : Type := JSNumber → JSNumber → JSNumber → JSNumber → Int

/-- `mapItemToPlace(item, userLat, userLng)`. -/
def mapItemToPlace (D : DistanceFn) (item : PharmacyListApiItem)
    (userLat userLng : JSNumber) (now : BusinessHours.JSDate) : Option PlaceResponse :=
  if !truthyNumOpt item.wgs84Lat || !truthyNumOpt item.wgs84Lon then none
  else
    let lat := toJSNumber item.wgs84Lat
    let lng := toJSNumber item.wgs84Lon
    if lat.isNaN || lng.isNaN then none
    else
      let times := getTodayBusinessTime item now
      let str := getStatusAndTimeRaw times.1 times.2 now
      let todayHours :=
        if truthyOpt times.1 && truthyOpt times.2 then
          some (formatTime times.1, formatTime times.2)
        else none
      let distance := D userLat userLng lat lng
      some {
        id := makePlaceId item.hpid lat lng
        type := "pharmacy"
        name := jsOrStr item.dutyName "이름 없음"
        lat := lat
        lng := lng
        isOpen := str.1
        openStatus := str.2.1
        address := item.dutyAddr
        phone := item.dutyTel1
        distance := some distance
        category := some "약국"
        todayHours := todayHours
        todayTimeRaw := some str.2.2 }

/-- The reverse-geocoding result (`sido`/`sigungu`). -/
structure Address where
  sido : String
  sigungu : String
deriving DecidableEq

/-- The handler's response: HTTP status and the JSON body fields. -/
structure GetResult where
  status : Int
  success : Bool
  error : Option String := none
  count : Option Int := none
  cached : Option Bool := none
  data : List PlaceResponse := []

/-- Which external effects the handler performed. -/
structure GetTrace where
  geocodeCalled : Bool
  registryCalled : Bool
  cacheRead : Bool
  cacheWrote : Bool
deriving DecidableEq

/-- The `GET` handler of the cached route.  External calls are abstracted into
arguments: `geocode` is the reverse-geocoding answer, `items` the registry
page list the paginated fetch would deliver (`numOfRows` only shapes that
request), `D` the distance computation, and `nowMs` is `Date.now()`.  Returns
the response, the cache state afterwards, and the effect trace. -/
def GET (latStr lngStr : Option String) (geocode : Option Address)
    (items : List PharmacyListApiItem) (D : DistanceFn)
    (cache : Cache.MemoryCache (List PlaceResponse))
    (now : BusinessHours.JSDate) (nowMs : Int) :
    GetResult × Cache.MemoryCache (List PlaceResponse) × GetTrace :=
  let lat := parseFloat (jsOrStr latStr "")
  let lng := parseFloat (jsOrStr lngStr "")
  if lat.isNaN || lng.isNaN then
    ({ status := 400, success := false,
       error := some "유효한 lat, lng 파라미터가 필요합니다.", data := [] },
     cache, ⟨false, false, false, false⟩)
  else
    match geocode with
    | none =>
      ({ status := 200, success := false, error := some "주소를 찾을 수 없습니다.", data := [] },
       cache, ⟨true, false, false, false⟩)
    | some address =>
      let cacheKey := address.sido ++ "_" ++ address.sigungu
      let got := cache.get cacheKey nowMs
      match got.1 with
      | some cachedData =>
        let updatedData := cachedData.map
          (fun place => { place with distance := some (D lat lng place.lat place.lng) })
        let sorted := sortByDistance PlaceResponse.distance updatedData
        ({ status := 200, success := true, count := some sorted.length, cached := some true,
           data := sorted },
         got.2, ⟨true, false, true, false⟩)
      | none =>
        let places := items.filterMap (fun item => mapItemToPlace D item lat lng now)
        let sorted := sortByDistance PlaceResponse.distance places
        let uniquePlaces :=
          ApiUtils.removeDuplicatesByCoords PlaceResponse.lat PlaceResponse.lng sorted
        let cache2 := got.2.set cacheKey uniquePlaces nowMs
        ({ status := 200, success := true, count := some uniquePlaces.length,
           cached := some false, data := uniquePlaces },
         cache2, ⟨true, true, true, true⟩)

end PharmacyAddressRoute

/-! ## Claims about the route handlers -/

/-- The sort-then-dedup pipeline yields pairwise-distinct coordinates, keeps
the sorted order, is a sublist of the sorted input, and retains a
representative of every (non-`NaN`-coordinate) place. -/
theorem dedup_sorted_spec {α : Type} (latOf lngOf : α → JSNumber) (distOf : α → Option Int)
    (l : List α) :
    (ApiUtils.removeDuplicatesByCoords latOf lngOf (sortByDistance distOf l)).Pairwise
      (fun a b => ApiUtils.coordEqBy latOf lngOf a b = false) ∧
    (ApiUtils.removeDuplicatesByCoords latOf lngOf (sortByDistance distOf l)).Pairwise
      (fun a b => distKey (distOf a) ≤ distKey (distOf b)) ∧
    (ApiUtils.removeDuplicatesByCoords latOf lngOf (sortByDistance distOf l)).Sublist
      (sortByDistance distOf l) ∧
    ∀ p ∈ sortByDistance distOf l, ApiUtils.coordEqBy latOf lngOf p p = true →
      ∃ q ∈ ApiUtils.removeDuplicatesByCoords latOf lngOf (sortByDistance distOf l),
        ApiUtils.coordEqBy latOf lngOf q p = true := by
  refine ⟨ApiUtils.removeDuplicatesBy_pairwise _ _, ?_, ApiUtils.removeDuplicatesBy_sublist _ _,
    ?_⟩
  · exact List.Pairwise.sublist (ApiUtils.removeDuplicatesBy_sublist _ _)
      (sortByDistance_sorted distOf l)
  · intro p hp hself
    exact ApiUtils.removeDuplicatesBy_exists_rep _ (coordEqBy_symm latOf lngOf)
      (coordEqBy_trans latOf lngOf) _ p hp hself

/-- Two registry items at latitudes 1 and 2 (both with valid coordinates and
no business hours). -/
def c6items : List PharmacyAddressRoute.PharmacyListApiItem :=
  [ { wgs84Lat := some (.num 1), wgs84Lon := some (.num 1) },
    { wgs84Lat := some (.num 2), wgs84Lon := some (.num 2) } ]

/-- A distance computation under which the place at latitude 2 is at the
user's exact location (0 metres — `calculateDistance` genuinely returns 0 for
coincident coordinates) and the other is 5 metres away. -/
def c6D : PharmacyAddressRoute.DistanceFn :=
  fun _ _ lat _ => if lat.jsEq (.fin 2) then 0 else 5

/-- The mapped places of the counterexample request. -/
def c6places : List PharmacyAddressRoute.PlaceResponse :=
  c6items.filterMap (fun item => PharmacyAddressRoute.mapItemToPlace c6D item
    (parseFloat (jsOrStr (some "37.5") "")) (parseFloat (jsOrStr (some "127.0") "")) bhDate0)

/-- The counterexample response. -/
def c6res := PharmacyAddressRoute.GET (some "37.5") (some "127.0")
  (some ⟨"서울특별시", "강남구"⟩) c6items c6D
  (Cache.MemoryCache.make (List PharmacyAddressRoute.PlaceResponse) 60 50) bhDate0 0

/-- C6 counterexample: a successful (non-cached) response whose data is
**not** sorted non-decreasingly by the distance field with only the
missing-distance places last: both places carry a distance, yet they come
back in the order 5 m, 0 m, because the comparator `(a.distance || Infinity)`
treats the falsy distance 0 as `Infinity` and sorts that place last. -/
theorem GET_sort_zero_distance_counterexample :
    c6res.1.success = true ∧ c6res.1.cached = some false ∧
    c6res.1.data.map PharmacyAddressRoute.PlaceResponse.distance = [some 5, some 0] ∧
    ¬ ((5 : Int) ≤ 0) := by
  refine ⟨rfl, rfl, ?_, by omega⟩
  have hdata : c6res.1.data =
      ApiUtils.removeDuplicatesByCoords PharmacyAddressRoute.PlaceResponse.lat
        PharmacyAddressRoute.PlaceResponse.lng
        (sortByDistance PharmacyAddressRoute.PlaceResponse.distance c6places) := rfl
  have hsorted : c6places.Pairwise (fun a b =>
      (decide (distKey a.distance ≤ distKey b.distance)) = true) := by decide
  have hsort : sortByDistance PharmacyAddressRoute.PlaceResponse.distance c6places = c6places :=
    List.mergeSort_of_sorted hsorted
  rw [hdata, hsort]
  decide

/-- C6 (amended): every successful pharmacies response (the coordinate
route's success, and the cached route's non-cached success) has
pairwise-distinct (lat, lng) pairs under JS `===`; is sorted non-decreasingly
by the comparator's key, under which a *missing or zero* distance counts as
`Infinity` and is ordered last; is a sublist of the distance-sorted mapped
places (so only first occurrences are kept); and retains a representative of
every mapped place with non-`NaN` coordinates. -/
theorem GET_data_sorted_dedup (latStr lngStr : Option String)
    (items1 : List PharmacyLocationRoute.PharmacyLocationApiItem)
    (geocode : Option PharmacyAddressRoute.Address)
    (items2 : List PharmacyAddressRoute.PharmacyListApiItem)
    (D : PharmacyAddressRoute.DistanceFn)
    (cache : Cache.MemoryCache (List PharmacyAddressRoute.PlaceResponse))
    (now : BusinessHours.JSDate) (nowMs : Int) :
    ((PharmacyLocationRoute.GET latStr lngStr items1 now).1.success = true →
      (PharmacyLocationRoute.GET latStr lngStr items1 now).1.data.Pairwise
        (fun a b => ApiUtils.coordEqBy PharmacyLocationRoute.PlaceResponse.lat
          PharmacyLocationRoute.PlaceResponse.lng a b = false) ∧
      (PharmacyLocationRoute.GET latStr lngStr items1 now).1.data.Pairwise
        (fun a b => distKey a.distance ≤ distKey b.distance) ∧
      (PharmacyLocationRoute.GET latStr lngStr items1 now).1.data.Sublist
        (sortByDistance PharmacyLocationRoute.PlaceResponse.distance
          (items1.filterMap (fun item => PharmacyLocationRoute.mapItemToPlace item now))) ∧
      (∀ p ∈ sortByDistance PharmacyLocationRoute.PlaceResponse.distance
          (items1.filterMap (fun item => PharmacyLocationRoute.mapItemToPlace item now)),
        ApiUtils.coordEqBy PharmacyLocationRoute.PlaceResponse.lat
          PharmacyLocationRoute.PlaceResponse.lng p p = true →
        ∃ q ∈ (PharmacyLocationRoute.GET latStr lngStr items1 now).1.data,
          ApiUtils.coordEqBy PharmacyLocationRoute.PlaceResponse.lat
            PharmacyLocationRoute.PlaceResponse.lng q p = true)) ∧
    ((PharmacyAddressRoute.GET latStr lngStr geocode items2 D cache now nowMs).1.cached =
        some false →
      (PharmacyAddressRoute.GET latStr lngStr geocode items2 D cache now nowMs).1.data.Pairwise
        (fun a b => ApiUtils.coordEqBy PharmacyAddressRoute.PlaceResponse.lat
          PharmacyAddressRoute.PlaceResponse.lng a b = false) ∧
      (PharmacyAddressRoute.GET latStr lngStr geocode items2 D cache now nowMs).1.data.Pairwise
        (fun a b => distKey a.distance ≤ distKey b.distance) ∧
      (PharmacyAddressRoute.GET latStr lngStr geocode items2 D cache now nowMs).1.data.Sublist
        (sortByDistance PharmacyAddressRoute.PlaceResponse.distance
          (items2.filterMap (fun item => PharmacyAddressRoute.mapItemToPlace D item
            (parseFloat (jsOrStr latStr "")) (parseFloat (jsOrStr lngStr "")) now))) ∧
      (∀ p ∈ sortByDistance PharmacyAddressRoute.PlaceResponse.distance
          (items2.filterMap (fun item => PharmacyAddressRoute.mapItemToPlace D item
            (parseFloat (jsOrStr latStr "")) (parseFloat (jsOrStr lngStr "")) now)),
        ApiUtils.coordEqBy PharmacyAddressRoute.PlaceResponse.lat
          PharmacyAddressRoute.PlaceResponse.lng p p = true →
        ∃ q ∈ (PharmacyAddressRoute.GET latStr lngStr geocode items2 D cache now nowMs).1.data,
          ApiUtils.coordEqBy PharmacyAddressRoute.PlaceResponse.lat
            PharmacyAddressRoute.PlaceResponse.lng q p = true)) := by
  constructor
  · intro hs
    by_cases hnan : ((parseFloat (jsOrStr latStr "")).isNaN ||
        (parseFloat (jsOrStr lngStr "")).isNaN) = true
    · exfalso
      simp only [PharmacyLocationRoute.GET, hnan, if_true] at hs
      cases hs
    · rw [Bool.not_eq_true] at hnan
      simp only [PharmacyLocationRoute.GET, hnan, Bool.false_eq_true, if_false]
      obtain ⟨h1, h2, h3, h4⟩ := dedup_sorted_spec PharmacyLocationRoute.PlaceResponse.lat
        PharmacyLocationRoute.PlaceResponse.lng PharmacyLocationRoute.PlaceResponse.distance
        (items1.filterMap (fun item => PharmacyLocationRoute.mapItemToPlace item now))
      exact ⟨h1, h2, h3, h4⟩
  · intro hc
    by_cases hnan : ((parseFloat (jsOrStr latStr "")).isNaN ||
        (parseFloat (jsOrStr lngStr "")).isNaN) = true
    · exfalso
      simp only [PharmacyAddressRoute.GET, hnan, if_true] at hc
      cases hc
    · rw [Bool.not_eq_true] at hnan
      rcases geocode with _ | address
      · exfalso
        simp only [PharmacyAddressRoute.GET, hnan, Bool.false_eq_true, if_false] at hc
        cases hc
      · rcases hget : (cache.get (address.sido ++ "_" ++ address.sigungu) nowMs).1
            with _ | cachedData
        · simp only [PharmacyAddressRoute.GET, hnan, Bool.false_eq_true, if_false, hget]
          obtain ⟨h1, h2, h3, h4⟩ := dedup_sorted_spec PharmacyAddressRoute.PlaceResponse.lat
            PharmacyAddressRoute.PlaceResponse.lng PharmacyAddressRoute.PlaceResponse.distance
            (items2.filterMap (fun item => PharmacyAddressRoute.mapItemToPlace D item
              (parseFloat (jsOrStr latStr "")) (parseFloat (jsOrStr lngStr "")) now))
          exact ⟨h1, h2, h3, h4⟩
        · exfalso
          simp only [PharmacyAddressRoute.GET, hnan, Bool.false_eq_true, if_false, hget] at hc
          cases hc

/-- C6 witness: the concrete non-cached response has pairwise-distinct
coordinates. -/
theorem GET_data_sorted_dedup_witness :
    c6res.1.data.Pairwise (fun a b =>
      ApiUtils.coordEqBy PharmacyAddressRoute.PlaceResponse.lat
        PharmacyAddressRoute.PlaceResponse.lng a b = false) :=
  ((GET_data_sorted_dedup (some "37.5") (some "127.0") [] (some ⟨"서울특별시", "강남구"⟩)
    c6items c6D (Cache.MemoryCache.make (List PharmacyAddressRoute.PlaceResponse) 60 50)
    bhDate0 0).2 rfl).1

/-- `{ place, distance: calculateDistance(lat, lng, place.lat, place.lng) }`:
a cached place with only its distance recomputed. -/
def updateDistance (D : PharmacyAddressRoute.DistanceFn) (ulat ulng : JSNumber)
    (place : PharmacyAddressRoute.PlaceResponse) : PharmacyAddressRoute.PlaceResponse :=
  { place with distance := some (D ulat ulng place.lat place.lng) }

/-- C7: on a fresh cache hit the handler answers `cached: true` without
calling the registry and without writing the cache; the cache is left
unchanged; and the data is exactly the cached place list with every field
unchanged except `distance`, which is recomputed from the request's
coordinates, re-sorted by the recomputed distances (the code's comparator
order). -/
theorem GET_cache_hit (latStr lngStr : Option String)
    (geocode : Option PharmacyAddressRoute.Address)
    (items2 : List PharmacyAddressRoute.PharmacyListApiItem)
    (D : PharmacyAddressRoute.DistanceFn)
    (cache : Cache.MemoryCache (List PharmacyAddressRoute.PlaceResponse))
    (now : BusinessHours.JSDate) (nowMs : Int)
    (address : PharmacyAddressRoute.Address)
    (entry : Cache.CacheEntry (List PharmacyAddressRoute.PlaceResponse))
    (hlat : (parseFloat (jsOrStr latStr "")).isNaN = false)
    (hlng : (parseFloat (jsOrStr lngStr "")).isNaN = false)
    (hgeo : geocode = some address)
    (hentry : Cache.mapGet cache.cache (address.sido ++ "_" ++ address.sigungu) = some entry)
    (hfresh : nowMs - entry.timestamp ≤ cache.ttlMs) :
    (PharmacyAddressRoute.GET latStr lngStr geocode items2 D cache now nowMs).1.cached =
      some true ∧
    (PharmacyAddressRoute.GET latStr lngStr geocode items2 D cache now nowMs).1.success = true ∧
    (PharmacyAddressRoute.GET latStr lngStr geocode items2 D cache now nowMs).1.status = 200 ∧
    (PharmacyAddressRoute.GET latStr lngStr geocode items2 D cache now nowMs).2.2.registryCalled
      = false ∧
    (PharmacyAddressRoute.GET latStr lngStr geocode items2 D cache now nowMs).2.2.cacheWrote
      = false ∧
    (PharmacyAddressRoute.GET latStr lngStr geocode items2 D cache now nowMs).2.1 = cache ∧
    (PharmacyAddressRoute.GET latStr lngStr geocode items2 D cache now nowMs).1.data =
      sortByDistance PharmacyAddressRoute.PlaceResponse.distance
        (entry.data.map (updateDistance D (parseFloat (jsOrStr latStr ""))
          (parseFloat (jsOrStr lngStr "")))) ∧
    (PharmacyAddressRoute.GET latStr lngStr geocode items2 D cache now nowMs).1.data.Perm
      (entry.data.map (updateDistance D (parseFloat (jsOrStr latStr ""))
        (parseFloat (jsOrStr lngStr "")))) ∧
    (PharmacyAddressRoute.GET latStr lngStr geocode items2 D cache now nowMs).1.data.Pairwise
      (fun a b => distKey a.distance ≤ distKey b.distance) := by
  subst hgeo
  have hget : cache.get (address.sido ++ "_" ++ address.sigungu) nowMs =
      (some entry.data, cache) := by
    simp [Cache.MemoryCache.get, hentry, not_lt.mpr hfresh]
  have hnan : ((parseFloat (jsOrStr latStr "")).isNaN ||
      (parseFloat (jsOrStr lngStr "")).isNaN) = false := by
    rw [hlat, hlng]
    rfl
  simp only [PharmacyAddressRoute.GET, hnan, Bool.false_eq_true, if_false, hget]
  refine ⟨by trivial, by trivial, by trivial, by trivial, by trivial, by trivial, by trivial,
    ?_, ?_⟩
  · exact sortByDistance_perm _ _
  · exact sortByDistance_sorted _ _

/-- A cached place. -/
def c7place : PharmacyAddressRoute.PlaceResponse :=
  { id := .hpid "C1100000001", type := "pharmacy", name := "테스트약국",
    lat := .fin 37, lng := .fin 127, isOpen := true, openStatus := .«open»,
    distance := some 340 }

/-- A cache that was filled for the district key at time 0. -/
def c7cache : Cache.MemoryCache (List PharmacyAddressRoute.PlaceResponse) :=
  (Cache.MemoryCache.make (List PharmacyAddressRoute.PlaceResponse) 60 50).set
    "서울특별시_강남구" [c7place] 0

/-- A concrete distance computation for the witness. -/
def c7D : PharmacyAddressRoute.DistanceFn := fun _ _ _ _ => 250

/-- C7 witness: a concrete fresh cache hit answers `cached: true` without
contacting the registry. -/
theorem GET_cache_hit_witness :
    (PharmacyAddressRoute.GET (some "37.5") (some "127.0") (some ⟨"서울특별시", "강남구"⟩) []
      c7D c7cache bhDate1 1000).1.cached = some true ∧
    (PharmacyAddressRoute.GET (some "37.5") (some "127.0") (some ⟨"서울특별시", "강남구"⟩) []
      c7D c7cache bhDate1 1000).2.2.registryCalled = false := by
  have h := GET_cache_hit (some "37.5") (some "127.0") (some ⟨"서울특별시", "강남구"⟩) []
    c7D c7cache bhDate1 1000 ⟨"서울특별시", "강남구"⟩ ⟨[c7place], 0⟩ rfl rfl rfl (by decide)
    (by decide)
  exact ⟨h.1, h.2.2.2.1⟩

/-- C10: when `lat` or `lng` is missing or does not parse as a number, both
route handlers return HTTP 400 with `success: false`, empty data and an error
message, without contacting the geocoding or registry APIs and without
reading or writing the cache. -/
theorem GET_invalid_latlng_400 (latStr lngStr : Option String)
    (items1 : List PharmacyLocationRoute.PharmacyLocationApiItem)
    (geocode : Option PharmacyAddressRoute.Address)
    (items2 : List PharmacyAddressRoute.PharmacyListApiItem)
    (D : PharmacyAddressRoute.DistanceFn)
    (cache : Cache.MemoryCache (List PharmacyAddressRoute.PlaceResponse))
    (now : BusinessHours.JSDate) (nowMs : Int)
    (hnan : ((parseFloat (jsOrStr latStr "")).isNaN ||
      (parseFloat (jsOrStr lngStr "")).isNaN) = true) :
    (PharmacyLocationRoute.GET latStr lngStr items1 now).1 =
      { status := 400, success := false,
        error := some "유효한 lat, lng 파라미터가 필요합니다.", data := [] } ∧
    (PharmacyLocationRoute.GET latStr lngStr items1 now).2 = false ∧
    (PharmacyAddressRoute.GET latStr lngStr geocode items2 D cache now nowMs).1.status = 400 ∧
    (PharmacyAddressRoute.GET latStr lngStr geocode items2 D cache now nowMs).1.success
      = false ∧
    (PharmacyAddressRoute.GET latStr lngStr geocode items2 D cache now nowMs).1.data = [] ∧
    (PharmacyAddressRoute.GET latStr lngStr geocode items2 D cache now nowMs).1.error =
      some "유효한 lat, lng 파라미터가 필요합니다." ∧
    (PharmacyAddressRoute.GET latStr lngStr geocode items2 D cache now nowMs).2.1 = cache ∧
    (PharmacyAddressRoute.GET latStr lngStr geocode items2 D cache now nowMs).2.2 =
      ⟨false, false, false, false⟩ := by
  simp [PharmacyLocationRoute.GET, PharmacyAddressRoute.GET, hnan]

/-- C10 witness: a request with no `lat`/`lng` parameters gets the 400
response on both routes and the cache is untouched. -/
theorem GET_invalid_latlng_400_witness :
    (PharmacyLocationRoute.GET none none [] bhDate0).1 =
      { status := 400, success := false,
        error := some "유효한 lat, lng 파라미터가 필요합니다.", data := [] } ∧
    (PharmacyAddressRoute.GET none none none [] c7D
      (Cache.MemoryCache.make (List PharmacyAddressRoute.PlaceResponse) 60 50)
      bhDate0 0).2.2 = ⟨false, false, false, false⟩ := by
  have h := GET_invalid_latlng_400 none none [] none [] c7D
    (Cache.MemoryCache.make (List PharmacyAddressRoute.PlaceResponse) 60 50) bhDate0 0 rfl
  exact ⟨h.1, h.2.2.2.2.2.2.2⟩
